import Mathlib

/-!
Verification of the TipTopDispatch route-sync pipeline
(src/google-apps-script/route_sync_unified_v4.gs, plus the phone
normalizer from route_sync_dual_v3.gs) against its natural-language
specification.

The Apps Script code is shallowly embedded: each `.gs` helper becomes a
Lean definition with the same name (minus the trailing underscore);
JavaScript strings become `String`, dynamic objects become structures,
and the external collaborators (Drive, Docs OCR, the generative HTTP
endpoint, the geocoder) become explicit oracle functions threaded in an
environment.  Regular expressions used by the source are implemented
character-by-character with the exact semantics of the original pattern.
All definitions are executable so that concrete runs can be settled by
`decide` / `rfl`.
-/

namespace TipTop

/-! ### Character and string primitives

JavaScript semantics for the character classes used by the source
regexes (`\s`, `\d`, `\w`), and ASCII case mapping mirroring
`String.prototype.toUpperCase` / `toLowerCase` (all inputs handled by
the pipeline are ASCII). -/

def jsWsChar (c : Char) : Bool :=
  c = ' ' ∨ c = '\t' ∨ c = '\n' ∨ c = '\r' ∨ c = '\x0b' ∨ c = '\x0c'

def isDigitC (c : Char) : Bool := '0' ≤ c ∧ c ≤ '9'

def isWordChar (c : Char) : Bool :=
  ('A' ≤ c ∧ c ≤ 'Z') ∨ ('a' ≤ c ∧ c ≤ 'z') ∨ isDigitC c ∨ c = '_'

def upChar (c : Char) : Char :=
  if 'a' ≤ c ∧ c ≤ 'z' then Char.ofNat (c.toNat - 32) else c

def lowChar (c : Char) : Char :=
  if 'A' ≤ c ∧ c ≤ 'Z' then Char.ofNat (c.toNat + 32) else c

def strUpper (s : String) : String := String.mk (s.data.map upChar)

def strLower (s : String) : String := String.mk (s.data.map lowChar)

/-- JavaScript `String.prototype.trim` on the ASCII whitespace class. -/
def jsTrim (s : String) : String :=
  String.mk (((s.data.dropWhile jsWsChar).reverse.dropWhile jsWsChar).reverse)

/-- Replace every run of whitespace by a single space
(the `replace(/\s+/g, ' ')` part of `normalizeWsV4_`). -/
def collapseWsAux : Bool → List Char → List Char
  | _, [] => []
  | inWs, c :: cs =>
    if jsWsChar c then
      if inWs then collapseWsAux true cs else ' ' :: collapseWsAux true cs
    else c :: collapseWsAux false cs

/-- Source `normalizeWsV4_`: `String(s || '').replace(/\s+/g, ' ').trim()`. -/
def normalizeWsV4 (s : String) : String :=
  jsTrim (String.mk (collapseWsAux false s.data))

/-- Character class `[-:,\s]` used by `cleanLocationV4_`. -/
def punctWsChar (c : Char) : Bool := c = '-' ∨ c = ':' ∨ c = ',' ∨ jsWsChar c

def firstWsIdx : List Char → Option Nat
  | [] => none
  | c :: cs => if jsWsChar c then some 0 else (firstWsIdx cs).map (· + 1)

/-- The `replace(/\s+[-:,\s]+$/, '')` step of `cleanLocationV4_`: the
leftmost match of the anchored pattern starts at the first whitespace
character inside the maximal trailing run of `[-:,\s]` characters,
provided at least one class character follows it. -/
def stripTrailPunct (l : List Char) : List Char :=
  let runLen := (l.reverse.takeWhile punctWsChar).length
  let suffix := l.drop (l.length - runLen)
  match firstWsIdx suffix with
  | none => l
  | some i => if i + 1 < suffix.length then l.take (l.length - runLen + i) else l

/-- Source `cleanLocationV4_`:
`normalizeWsV4_(s).replace(/^[-:,\s]+/, '').replace(/\s+[-:,\s]+$/, '')`. -/
def cleanLocationV4 (s : String) : String :=
  String.mk (stripTrailPunct ((normalizeWsV4 s).data.dropWhile punctWsChar))

/-- Source `normalizeBusV4_`: keep digits (`replace(/\D/g,'')`), zero-pad
to three characters when one or two digits remain. -/
def normalizeBusV4 (v : String) : String :=
  let d := v.data.filter isDigitC
  if d = [] then ""
  else if d.length = 1 then String.mk ('0' :: '0' :: d)
  else if d.length = 2 then String.mk ('0' :: d)
  else String.mk d

/-- Source `stripExtV4_`: drop the extension after the last dot. -/
def stripExtV4 (name : String) : String :=
  let revIdx := name.data.reverse.findIdx? (· = '.')
  match revIdx with
  | none => name
  | some i => String.mk (name.data.take (name.length - i - 1))

/-! ### Time parsing

The regex `^(\d{1,2})(?::(\d{2}))?\s*(AM|PM)?$` (case-insensitive) used
by `parseTimeMinsV4_` and `normalizeTimeV4_`.  The match returns the
verbatim captured groups.  Backtracking is not needed: the digit groups
are maximal runs bounded by the following mandatory shapes. -/

def timeMatch (l : List Char) : Option (List Char × Option (List Char) × Option (List Char)) :=
  let ds := l.takeWhile isDigitC
  if ds = [] ∨ 2 < ds.length then none
  else
    let r1 := l.drop ds.length
    let step : Option (List Char) × List Char :=
      match r1 with
      | ':' :: m1 :: m2 :: rest =>
        if isDigitC m1 ∧ isDigitC m2 ∧ (rest.takeWhile isDigitC = []) then
          (some [m1, m2], rest)
        else (none, r1)
      | _ => (none, r1)
    let r2 := step.2.dropWhile jsWsChar
    match r2 with
    | [] => some (ds, step.1, none)
    | [a, m] =>
      if (upChar a = 'A' ∨ upChar a = 'P') ∧ upChar m = 'M' then
        some (ds, step.1, some [a, m])
      else none
    | _ => none

def natOfDigits (l : List Char) : Nat :=
  l.foldl (fun n c => n * 10 + (c.toNat - '0'.toNat)) 0

/-- Source `parseTimeMinsV4_`: minutes past midnight, or `none` when the
time regex does not match the trimmed string. -/
def parseTimeMinsV4 (s : String) : Option Nat :=
  match timeMatch (jsTrim s).data with
  | none => none
  | some (hs, ms, ap) =>
    let h := natOfDigits hs
    let min := natOfDigits (ms.getD ['0'])
    let apU := (ap.getD []).map upChar
    let h' :=
      if apU = ['P', 'M'] ∧ h < 12 then h + 12
      else if apU = ['A', 'M'] ∧ h = 12 then 0
      else h
    some (h' * 60 + min)

/-- Source `normalizeTimeV4_`: collapse whitespace, uppercase, and when
the time regex matches rebuild the string as `H:MM[ AP]`. -/
def normalizeTimeV4 (t : String) : String :=
  let s := strUpper (normalizeWsV4 t)
  if s = "" then ""
  else
    match timeMatch s.data with
    | none => s
    | some (hs, ms, ap) =>
      String.mk (hs ++ ':' :: ms.getD ['0', '0'] ++
        (match ap with
         | some a => ' ' :: a
         | none => []))

/-! ### Word-boundary keyword scans

`\bAM\b`, `\bPM\b` and `\bMID[-\s]?DAY\b` from `canonicalPeriodV4_`, with
JavaScript `\b` semantics (`\w = [A-Za-z0-9_]`). -/

def boundaryAfter : List Char → Bool
  | [] => true
  | c :: _ => ¬ isWordChar c

/-- Does the list start with the given all-word-character token followed
by a word boundary? -/
def startsWordToken (l : List Char) (w : List Char) : Bool :=
  l.take w.length = w ∧ boundaryAfter (l.drop w.length)

def containsWordAux (w : List Char) : Bool → List Char → Bool
  | _, [] => false
  | prevW, c :: cs =>
    ((¬ prevW) ∧ startsWordToken (c :: cs) w) ∨ containsWordAux w (isWordChar c) cs

/-- Test `\b<token>\b` for a token made of word characters. -/
def containsWord (s : String) (w : List Char) : Bool :=
  containsWordAux w false s.data

/-- Branch of `MID[-\s]?DAY\b` that consumes the optional separator. -/
def midDaySep : List Char → Bool
  | c :: cs => (c = '-' ∨ jsWsChar c) ∧ cs.take 3 = ['D', 'A', 'Y'] ∧ boundaryAfter (cs.drop 3)
  | [] => false

/-- Match of `MID[-\s]?DAY\b` at the head of the list. -/
def midDayAt (l : List Char) : Bool :=
  l.take 3 = ['M', 'I', 'D'] ∧
    (midDaySep (l.drop 3) ∨
      ((l.drop 3).take 3 = ['D', 'A', 'Y'] ∧ boundaryAfter ((l.drop 3).drop 3)))

def containsMidDayAux : Bool → List Char → Bool
  | _, [] => false
  | prevW, c :: cs =>
    ((¬ prevW) ∧ midDayAt (c :: cs)) ∨ containsMidDayAux (isWordChar c) cs

/-- Test `\bMID[-\s]?DAY\b`. -/
def containsMidDay (s : String) : Bool := containsMidDayAux false s.data

/-! ### Period classification (`canonicalPeriodV4_`) -/

structure Student where
  name : String
  contactName : String
  phoneNumber : String
  otherEquipment : String
deriving DecidableEq

structure Stop where
  time : String
  location : String
  students : List Student
  latitude : Option Int := none
  longitude : Option Int := none
  geocodeError : Option String := none
deriving DecidableEq

/-- The `best` accumulator loop of `canonicalPeriodV4_`: the smallest
parseable stop time in minutes past midnight. -/
def earliestTimeV4 (stops : List Stop) : Option Nat :=
  stops.foldl
    (fun best s =>
      match parseTimeMinsV4 s.time with
      | none => best
      | some t =>
        match best with
        | none => some t
        | some b => if t < b then some t else some b)
    none

/-- The keyword-scan tail of `canonicalPeriodV4_` (lines testing
`\bAM\b`, `\bPM\b`, `\bMID[-\s]?DAY\b` on the uppercased school name,
defaulting to Route). -/
def keywordPeriodV4 (schoolName : String) : String :=
  let up := strUpper schoolName
  if containsWord up ['A', 'M'] then "AM"
  else if containsWord up ['P', 'M'] then "PM"
  else if containsMidDay up then "Mid-day"
  else "Route"

/-- Source `canonicalPeriodV4_`. -/
def canonicalPeriodV4 (stops : List Stop) (schoolName : String) : String :=
  match earliestTimeV4 stops with
  | some best =>
    if 360 ≤ best ∧ best ≤ 570 then "AM"
    else if 570 < best ∧ best < 840 then "Mid-day"
    else if 840 ≤ best ∧ best ≤ 1080 then "PM"
    else keywordPeriodV4 schoolName
  | none => keywordPeriodV4 schoolName

/-! ### School-name canonicalization (`canonicalizeSchoolV4_`)

`String(s || '').toUpperCase()
  .replace(/\s*[-–—]\s*/g, ' ')
  .replace(/\b\(?\s*ROUTE\s*\)?/i, '')
  .replace(/\s+\((AM|PM|MID-?DAY)\)$/i, '')
  .replace(/\s+/g, ' ').trim()` -/

def dashChar (c : Char) : Bool := c = '-' ∨ c = '–' ∨ c = '—'

/-- Global replace of `\s*[-–—]\s*` by a single space.  `pend` buffers a
pending whitespace run that will be swallowed if a dash follows;
`after` is true while consuming the trailing `\s*` of a match. -/
def replDashAux : List Char → Bool → List Char → List Char
  | pend, _, [] => pend.reverse
  | pend, after, c :: cs =>
    if dashChar c then ' ' :: replDashAux [] true cs
    else if jsWsChar c then
      if after then replDashAux pend after cs
      else replDashAux (c :: pend) false cs
    else pend.reverse ++ c :: replDashAux [] false cs

def replDash (l : List Char) : List Char := replDashAux [] false l

/-- After the optional open paren of `\(?\s*ROUTE\s*\)?`: whitespace,
the literal ROUTE, whitespace, optional close paren.  Returns the
remainder after the match. -/
def routeTail (l : List Char) : Option (List Char) :=
  let l1 := l.dropWhile jsWsChar
  if l1.take 5 = ['R', 'O', 'U', 'T', 'E'] then
    let l2 := (l1.drop 5).dropWhile jsWsChar
    some (if l2.head? = some ')' then l2.tail else l2)
  else none

def routeMatchAt (l : List Char) : Option (List Char) :=
  match l with
  | '(' :: rest =>
    match routeTail rest with
    | some r => some r
    | none => routeTail l
  | _ => routeTail l

/-- First-occurrence removal of `\b\(?\s*ROUTE\s*\)?` (the `\b` is
evaluated at the candidate start position). -/
def stripRouteAnnotAux : Bool → List Char → List Char
  | _, [] => []
  | prevW, c :: cs =>
    if (prevW ≠ isWordChar c) then
      match routeMatchAt (c :: cs) with
      | some rest => rest
      | none => c :: stripRouteAnnotAux (isWordChar c) cs
    else c :: stripRouteAnnotAux (isWordChar c) cs

def stripRouteAnnot (l : List Char) : List Char := stripRouteAnnotAux false l

/-- Anchored removal of `\s+\((AM|PM|MID-?DAY)\)$` (input is already
uppercased, so the case-insensitive flag is immaterial). -/
def stripPeriodSuffix (l : List Char) : List Char :=
  let rev := l.reverse
  let payload : Option (List Char) :=
    match rev with
    | ')' :: r1 =>
      if r1.take 2 = ['M', 'A'] then some (r1.drop 2)
      else if r1.take 2 = ['M', 'P'] then some (r1.drop 2)
      else if r1.take 6 = ['Y', 'A', 'D', 'D', 'I', 'M'] then some (r1.drop 6)
      else if r1.take 7 = ['Y', 'A', 'D', '-', 'D', 'I', 'M'] then some (r1.drop 7)
      else none
    | _ => none
  match payload with
  | none => l
  | some r2 =>
    match r2 with
    | '(' :: r3 =>
      let ws := r3.takeWhile jsWsChar
      if ws = [] then l else (r3.drop ws.length).reverse
    | _ => l

/-- Source `canonicalizeSchoolV4_`. -/
def canonicalizeSchoolV4 (s : String) : String :=
  normalizeWsV4 (String.mk (stripPeriodSuffix (stripRouteAnnot (replDash (strUpper s).data))))

/-- Source `canonicalRouteFileStemV4_`:
`"{canonical school} ({period})"`. -/
def canonicalRouteFileStemV4 (schoolName : String) (stops : List Stop) : String :=
  canonicalizeSchoolV4 schoolName ++ " (" ++ canonicalPeriodV4 stops schoolName ++ ")"

/-! ### Route cleaning (`cleanRouteV4_`) -/

structure RouteDraft where
  busNumber : String
  schoolName : String
  stops : List Stop
deriving DecidableEq

/-- Prefix test `/^(LEFT|RIGHT|TURN|PROCEED|CONTINUE)\b/i`. -/
def isManeuverV4 (loc : String) : Bool :=
  let u := (strUpper loc).data
  startsWordToken u ['L', 'E', 'F', 'T'] ∨
  startsWordToken u ['R', 'I', 'G', 'H', 'T'] ∨
  startsWordToken u ['T', 'U', 'R', 'N'] ∨
  startsWordToken u ['P', 'R', 'O', 'C', 'E', 'E', 'D'] ∨
  startsWordToken u ['C', 'O', 'N', 'T', 'I', 'N', 'U', 'E']

/-- The dedup key `` `${time}|${loc}`.toLowerCase() `` of `cleanRouteV4_`
(lowercasing distributes over the concatenation; `'|'` is unaffected). -/
def stopKeyV4 (time loc : String) : String :=
  String.mk ((time.data ++ '|' :: loc.data).map lowChar)

/-- The dedup key of an already-normalized stop (its `time` and
`location` fields are exactly the values the key was built from). -/
def stopKeyOf (s : Stop) : String := stopKeyV4 s.time s.location

/-- The filter/normalize part of one iteration of the `cleanRouteV4_`
stop loop, before the dedup check: drop empty, school-matching and
maneuver locations, normalize the time. -/
def normalizeStopV4 (school : String) (s : Stop) : Option Stop :=
  if s.location = "" then none
  else
    let loc := cleanLocationV4 s.location
    if loc = "" then none
    else if strLower loc = strLower school then none
    else if isManeuverV4 loc then none
    else some { time := normalizeTimeV4 s.time, location := loc, students := s.students }

/-- The `dedupe` map loop of `cleanRouteV4_`; `seen` is the set of keys
already kept. -/
def cleanStopsV4 (school : String) (seen : List String) : List Stop → List Stop
  | [] => []
  | s :: rest =>
    match normalizeStopV4 school s with
    | none => cleanStopsV4 school seen rest
    | some s' =>
      let k := stopKeyV4 s'.time s'.location
      if k ∈ seen then cleanStopsV4 school seen rest
      else s' :: cleanStopsV4 school (k :: seen) rest

/-- The school/bus fallback chains of `cleanRouteV4_`
(`||` on JavaScript strings: empty is falsy). -/
def jsOr (a b : String) : String := if a = "" then b else a

/-- Source `cleanRouteV4_`. -/
def cleanRouteV4 (route : RouteDraft) (fallbackSchool fallbackBus : String) : RouteDraft :=
  let school := jsOr (jsTrim (jsOr route.schoolName fallbackSchool)) "Unknown Route"
  let bus := jsOr (normalizeBusV4 (jsOr route.busNumber fallbackBus)) "N-A"
  { busNumber := bus, schoolName := school, stops := cleanStopsV4 school [] route.stops }

/-! ### Phone normalization (`normalizePhonesV3_` from route_sync_dual_v3.gs) -/

/-- Split on newline, exactly like `String.prototype.split('\n')`. -/
def splitNlAux : List Char → List Char → List String
  | cur, [] => [String.mk cur.reverse]
  | cur, c :: cs =>
    if c = '\n' then String.mk cur.reverse :: splitNlAux [] cs
    else splitNlAux (c :: cur) cs

def splitNl (s : String) : List String := splitNlAux [] s.data

/-- Per-line step 1: `s.replace(/[^\dxX]/g, '')`. -/
def phoneStrip (s : String) : String :=
  String.mk (s.data.filter (fun c => isDigitC c ∨ c = 'x' ∨ c = 'X'))

/-- Per-line step 2: drop a leading `'1'` from an 11-character result. -/
def phoneDropOne (s : String) : String :=
  if s.length = 11 ∧ s.data.head? = some '1' then String.mk s.data.tail else s

/-- Per-line step 3: `s.length >= 10 ? slice(0,3)-slice(3,6)-slice(6,10) : s`. -/
def phoneFormat (s : String) : String :=
  if 10 ≤ s.length then
    String.mk (s.data.take 3 ++ '-' :: (s.data.drop 3).take 3 ++ '-' :: (s.data.drop 6).take 4)
  else s

def phoneLine (s : String) : String := phoneFormat (phoneDropOne (phoneStrip s))

/-- The `filter` with the `seen` map: drop empties and duplicates,
keeping the first occurrence. -/
def phoneDedup (seen : List String) : List String → List String
  | [] => []
  | s :: rest =>
    if s = "" ∨ s ∈ seen then phoneDedup seen rest
    else s :: phoneDedup (s :: seen) rest

def joinNl : List String → String
  | [] => ""
  | [s] => s
  | s :: rest => s ++ "\n" ++ joinNl rest

/-- The deduplicated list of normalized phone lines. -/
def phoneList (raw : String) : List String :=
  phoneDedup [] ((splitNl raw).map phoneLine)

/-- Source `normalizePhonesV3_`. -/
def normalizePhonesV3 (raw : String) : String :=
  if raw = "" then "" else joinNl (phoneList raw)

/-! ### Pipeline state and its loader (`loadStateV4_`) -/

structure WorkItem where
  routeType : String
  fileId : String
  fileName : String
  updatedMs : Nat
  busNumberHint : String
  schoolNameHint : String
deriving DecidableEq

/-- A persisted geocode-cache value: numeric coordinates, or any other
JSON junk (which the `typeof` guard in `geocodeStopsV4_` treats as a
miss).  Coordinate numerics are opaque to the pipeline — they are only
ever copied — so they are carried as integers. -/
inductive CacheVal where
  | coord (lat lng : Int)
  | other
deriving DecidableEq

/-- Association-list lookup standing in for JavaScript object indexing. -/
def alGet {α : Type} : List (String × α) → String → Option α
  | [], _ => none
  | (k', v) :: rest, k => if k' = k then some v else alGet rest k

/-- Association-list update standing in for JavaScript object assignment. -/
def alSet {α : Type} : List (String × α) → String → α → List (String × α)
  | [], k, v => [(k, v)]
  | (k', v') :: rest, k, v =>
    if k' = k then (k', v) :: rest else (k', v') :: alSet rest k v

structure PipelineState where
  queue : List WorkItem
  pos : Nat
  processed : List (String × String)
  geocodeCache : List (String × CacheVal)
deriving DecidableEq

/-- The fields of a successfully parsed state document; `none` models a
missing field (or, for `queue`, a non-array value rejected by the
`Array.isArray` guard). -/
structure RawParsedState where
  queue : Option (List WorkItem)
  pos : Option Nat
  processed : Option (List (String × String))
  geocodeCache : Option (List (String × CacheVal))

/-- Source `loadStateV4_`.  The outer `Option` is file presence, the
inner `Option` is `JSON.parse` success; the catch branch and the
missing-file branch both return the empty initial state. -/
def loadStateV4 (doc : Option (Option RawParsedState)) : PipelineState :=
  match doc with
  | none => { queue := [], pos := 0, processed := [], geocodeCache := [] }
  | some none => { queue := [], pos := 0, processed := [], geocodeCache := [] }
  | some (some p) =>
    { queue := p.queue.getD []
      pos := p.pos.getD 0
      processed := p.processed.getD []
      geocodeCache := p.geocodeCache.getD [] }

/-! ### Retry executor (`withRetryV4_`)

The loop tries `fn()` up to `attempts` times and rethrows the last
error.  The oracle is indexed by the attempt number so that each call
can behave differently; the pair component counts the calls made. -/

def withRetryGo {ε α : Type} (fn : Nat → Except ε α) (lastErr : ε) :
    Nat → Nat → Except ε α × Nat
  | _, 0 => (.error lastErr, 0)
  | i, n + 1 =>
    match fn i with
    | .ok a => (.ok a, 1)
    | .error e =>
      let r := withRetryGo fn e (i + 1) n
      (r.1, r.2 + 1)

/-- Source `withRetryV4_` (the sleeps with exponential backoff and
jitter do not affect the value and are omitted). -/
def withRetryV4 {ε α : Type} (fn : Nat → Except ε α) (attempts : Nat) (initErr : ε) :
    Except ε α × Nat :=
  withRetryGo fn initErr 0 attempts

/-! ### Generative extraction (`extractSpecEdRoutesV4_`)

`UrlFetchApp.fetch` is called with `muteHttpExceptions: true`, so an
HTTP response — whatever its status — returns normally, and only a
transport-level failure throws.  The response body abstracts the
`JSON.parse` boundaries of the source: the outer body parse (line
`const body = JSON.parse(res.getContentText())`), the candidate-text
extraction, and the inner parse of the candidate text. -/

inductive GemInner where
  | malformed
  | notArray
  | arr (routes : List RouteDraft)
deriving DecidableEq

inductive GemBody where
  | malformed
  | noText
  | withText (t : GemInner)
deriving DecidableEq

inductive FetchOut where
  | throwErr
  | resp (code : Nat) (body : GemBody)
deriving DecidableEq

/-- Source `extractSpecEdRoutesV4_`.  Returns the routes (or the thrown
error) together with the number of fetch calls made by the retry
wrapper. -/
def extractSpecEdRoutesV4 (apiKey : Option String) (fetch : Nat → FetchOut)
    (text fallbackSchool fallbackBus : String) :
    Except String (List RouteDraft) × Nat :=
  if text = "" then (.ok [], 0)
  else
    match apiKey with
    | none => (.error "Missing GEMINI_API_KEY script property", 0)
    | some _ =>
      let fr := withRetryV4
        (fun i =>
          match fetch i with
          | .throwErr => .error "fetch failed"
          | .resp c b => .ok (c, b))
        3 "fetch failed"
      match fr.1 with
      | .error e => (.error e, fr.2)
      | .ok (code, body) =>
        if code ≠ 200 then (.error ("Gemini API " ++ toString code), fr.2)
        else
          match body with
          | .malformed => (.error "SyntaxError: unexpected token in JSON", fr.2)
          | .noText => (.ok [], fr.2)
          | .withText .malformed =>
            (.ok [{ busNumber := fallbackBus, schoolName := fallbackSchool, stops := [] }], fr.2)
          | .withText .notArray => (.ok [], fr.2)
          | .withText (.arr []) =>
            (.ok [{ busNumber := fallbackBus, schoolName := fallbackSchool, stops := [] }], fr.2)
          | .withText (.arr rs) => (.ok rs, fr.2)

/-! ### Geocoding (`geocodeStopsV4_`)

The geocoder is an oracle from the exact query string to a result:
`.error` models a call that throws on every retry (so the wrapped
`withRetryV4_` exhausts its budget and the exception propagates),
`.ok none` a no-match response, `.ok (some _)` the first result's
coordinates.  One `geocodeCall` trace event stands for one wrapped
geocoder invocation.  Events also record the JSON/sheet writes and the
log lines of the publish path. -/

def COUNTY_SUFFIX_V4 : String := ", Howard County, Maryland"
def MODEL_V4 : String := "gemini-2.5-flash"

structure ArtifactMeta where
  sourceType : String
  sourceFileId : String
  sourceFileName : String
  sourceUpdatedMs : Nat
  generatedAt : String
  model : String
deriving DecidableEq

structure Artifact where
  meta : ArtifactMeta
  busNumber : String
  schoolName : String
  period : String
  stops : List Stop
deriving DecidableEq

inductive Ev where
  | logSkip (routeType fileName : String)
  | logError (routeType fileName msg : String)
  | warnNoRoutes (fileName : String)
  | warnNoStops (fileName : String)
  | extractRegEd (fileId : String)
  | ocrCall (fileId : String)
  | fetchGemini
  | geocodeCall (query : String)
  | writeJson (bus name : String) (artifact : Artifact)
  | writeSheet (bus name : String)
  | logOk (line : String)
deriving DecidableEq

abbrev GeoFn := String → Except Unit (Option (Int × Int))
abbrev Cache := List (String × CacheVal)

def geoQueryV4 (stop : Stop) : String := stop.location ++ COUNTY_SUFFIX_V4

/-- The inner stop loop of `geocodeStopsV4_` over one stop list.  The
final component is true when the geocoder threw (after the retry budget)
and the exception propagates; mutations made before the throw persist,
exactly as the in-place JavaScript mutation does. -/
def geoStops (geo : GeoFn) : List Stop → Cache → List Stop × Cache × List Ev × Bool
  | [], cache => ([], cache, [], false)
  | s :: rest, cache =>
    let q := geoQueryV4 s
    let k := strLower q
    match alGet cache k with
    | some (.coord la ln) =>
      let r := geoStops geo rest cache
      ({ s with latitude := some la, longitude := some ln } :: r.1, r.2)
    | some .other =>
      match geo q with
      | .error _ => (s :: rest, cache, [.geocodeCall q], true)
      | .ok (some (la, ln)) =>
        let r := geoStops geo rest (alSet cache k (.coord la ln))
        ({ s with latitude := some la, longitude := some ln } :: r.1, r.2.1,
          .geocodeCall q :: r.2.2.1, r.2.2.2)
      | .ok none =>
        let r := geoStops geo rest cache
        ({ s with geocodeError := some ("No match for \"" ++ s.location ++ "\"") } :: r.1,
          r.2.1, .geocodeCall q :: r.2.2.1, r.2.2.2)
    | none =>
      match geo q with
      | .error _ => (s :: rest, cache, [.geocodeCall q], true)
      | .ok (some (la, ln)) =>
        let r := geoStops geo rest (alSet cache k (.coord la ln))
        ({ s with latitude := some la, longitude := some ln } :: r.1, r.2.1,
          .geocodeCall q :: r.2.2.1, r.2.2.2)
      | .ok none =>
        let r := geoStops geo rest cache
        ({ s with geocodeError := some ("No match for \"" ++ s.location ++ "\"") } :: r.1,
          r.2.1, .geocodeCall q :: r.2.2.1, r.2.2.2)

/-- The outer route loop of `geocodeStopsV4_`. -/
def geoRoutes (geo : GeoFn) : List RouteDraft → Cache → List RouteDraft × Cache × List Ev × Bool
  | [], cache => ([], cache, [], false)
  | r :: rest, cache =>
    let g := geoStops geo r.stops cache
    if g.2.2.2 then ({ r with stops := g.1 } :: rest, g.2.1, g.2.2.1, true)
    else
      let t := geoRoutes geo rest g.2.1
      ({ r with stops := g.1 } :: t.1, t.2.1, g.2.2.1 ++ t.2.2.1, t.2.2.2)

/-! ### Publish (`publishRoutesV4_`) -/

/-- The JSON artifact assembled in `publishRoutesV4_` (both
`WRITE_JSON_V4` and `WRITE_SHEETS_V4` are true in the source). -/
def routeArtifactV4 (now : String) (item : WorkItem) (route : RouteDraft) : Artifact :=
  { meta :=
      { sourceType := item.routeType
        sourceFileId := item.fileId
        sourceFileName := item.fileName
        sourceUpdatedMs := item.updatedMs
        generatedAt := now
        model := if item.routeType = "SPECED_PDF" then MODEL_V4 else "deterministic-red-lines" }
    busNumber := route.busNumber
    schoolName := route.schoolName
    period := canonicalPeriodV4 route.stops route.schoolName
    stops := route.stops }

/-- The per-route write loop of `publishRoutesV4_`. -/
def publishWriteEvs (now : String) (item : WorkItem) : List RouteDraft → List Ev
  | [] => []
  | r :: rest =>
    let bus := jsOr r.busNumber "N-A"
    let nm := canonicalRouteFileStemV4 r.schoolName r.stops
    .writeJson bus (nm ++ ".json") (routeArtifactV4 now item r) ::
    .logOk (bus ++ " " ++ nm ++ ".json") ::
    .writeSheet bus nm ::
    .logOk (bus ++ " " ++ nm ++ " (sheet)") ::
    publishWriteEvs now item rest

structure PubResult where
  cache : Cache
  trace : List Ev
  threw : Bool
deriving DecidableEq

/-- The `cleaned` list of `publishRoutesV4_`: per-route cleanup with the
item's hints, then dropping routes left with no stops. -/
def cleanedRoutesV4 (routes : List RouteDraft) (item : WorkItem) : List RouteDraft :=
  (routes.map (fun r => cleanRouteV4 r item.schoolNameHint item.busNumberHint)).filter
    (fun r => ¬ r.stops = [])

/-- Source `publishRoutesV4_`. -/
def publishRoutesV4 (geo : GeoFn) (now : String) (routes : List RouteDraft)
    (item : WorkItem) (cache : Cache) : PubResult :=
  if routes = [] then { cache := cache, trace := [.warnNoRoutes item.fileName], threw := false }
  else
    let cleaned := cleanedRoutesV4 routes item
    if cleaned = [] then
      { cache := cache, trace := [.warnNoStops item.fileName], threw := false }
    else
      let g := geoRoutes geo cleaned cache
      if g.2.2.2 then { cache := g.2.1, trace := g.2.2.1, threw := true }
      else { cache := g.2.1, trace := g.2.2.1 ++ publishWriteEvs now item g.1, threw := false }

/-! ### The Run Coordinator's batch loop (`syncRoutesUnifiedV4`, lines 53-77)

External collaborators are the environment: the deterministic RegEd doc
parser (`parseRegEdDocV4_` — repository code whose internals no claim
touches, so it is universally quantified here), the OCR conversion, the
generative fetch and the geocoder.  The OCR, Docs and geocoder oracles
are deterministic functions of their argument, so the surrounding
`withRetryV4_` wrappers collapse: a deterministic failure fails every
retry and the first outcome decides the wrapped call. -/

structure EnvV4 where
  parseRegEd : String → String → String → Except String (List RouteDraft)
  ocr : String → Except String String
  apiKey : Option String
  fetch : Nat → FetchOut
  geo : GeoFn
  nowIso : String

/-- The `String(item.updatedMs || '')` coercion on the comparison side
of the fingerprint check (line 58): zero/missing becomes the empty
string. -/
def strFingerprintV4 (u : Nat) : String := if u = 0 then "" else toString u

/-- The `String(item.updatedMs || 0)` coercion on the storing side
(line 73): zero/missing becomes "0". -/
def storedFingerprintV4 (u : Nat) : String := toString u

/-- The extraction dispatch on `item.routeType` (lines 64-70), with its
trace of external calls. -/
def extractForItemV4 (env : EnvV4) (item : WorkItem) :
    Except String (List RouteDraft) × List Ev :=
  if item.routeType = "REGED_DOC" then
    (env.parseRegEd item.fileId item.fileName item.busNumberHint, [.extractRegEd item.fileId])
  else if item.routeType = "SPECED_PDF" then
    match env.ocr item.fileId with
    | .error e => (.error e, [.ocrCall item.fileId])
    | .ok text =>
      let r := extractSpecEdRoutesV4 env.apiKey env.fetch text
        (jsOr item.schoolNameHint (stripExtV4 item.fileName)) item.busNumberHint
      (r.1, .ocrCall item.fileId :: List.replicate r.2 .fetchGemini)
  else (.ok [], [])

/-- One iteration of the batch loop of `syncRoutesUnifiedV4`: the guard
on falsy `fileId`/`routeType` (line 55), the fingerprint skip
(lines 57-61), the try block (lines 63-76) that extracts, publishes and
marks the item processed, and the per-item catch that logs the error. -/
def processItemV4 (env : EnvV4) (processed : List (String × String)) (cache : Cache)
    (item : WorkItem) : List (String × String) × Cache × List Ev :=
  if item.fileId = "" ∨ item.routeType = "" then (processed, cache, [])
  else if (alGet processed item.fileId).getD "" = strFingerprintV4 item.updatedMs then
    (processed, cache, [.logSkip item.routeType item.fileName])
  else
    match extractForItemV4 env item with
    | (.error msg, evs) =>
      (processed, cache, evs ++ [.logError item.routeType item.fileName msg])
    | (.ok routes, evs) =>
      let p := publishRoutesV4 env.geo env.nowIso routes item cache
      if p.threw then
        (processed, p.cache, evs ++ p.trace ++ [.logError item.routeType item.fileName "geocode failed"])
      else
        (alSet processed item.fileId (storedFingerprintV4 item.updatedMs), p.cache,
          evs ++ p.trace)

/-- The batch loop folded over the current slice of the queue
(`state.queue[pos..min(pos+BATCH_SIZE, len))`). -/
def processBatchV4 (env : EnvV4) : List WorkItem → List (String × String) → Cache →
    List (String × String) × Cache × List Ev
  | [], p, c => (p, c, [])
  | it :: rest, p, c =>
    let r1 := processItemV4 env p c it
    let r2 := processBatchV4 env rest r1.1 r1.2.1
    (r2.1, r2.2.1, r1.2.2 ++ r2.2.2)

/-! Concrete fixtures for closed evaluations: an environment in which
every extraction comes back empty and the geocoder never matches, and
two work items exercising the SpecEd and RegEd paths. -/

def envEmpty : EnvV4 :=
  { parseRegEd := fun _ _ _ => .ok []
    ocr := fun _ => .ok ""
    apiKey := none
    fetch := fun _ => .throwErr
    geo := fun _ => .ok none
    nowIso := "2026-02-03T00:00:00Z" }

def itemPdfA : WorkItem :=
  { routeType := "SPECED_PDF", fileId := "f1", fileName := "a.pdf", updatedMs := 5,
    busNumberHint := "", schoolNameHint := "" }

def itemDocZero : WorkItem :=
  { routeType := "REGED_DOC", fileId := "f", fileName := "doc", updatedMs := 0,
    busNumberHint := "", schoolNameHint := "" }

/-- Blank out the `generatedAt` provenance timestamp inside a JSON-write
event, leaving every other byte of the artifact alone. -/
def scrubEv : Ev → Ev
  | .writeJson b n a => .writeJson b n { a with meta := { a.meta with generatedAt := "" } }
  | e => e

/-! Theorems.  Each claim of the specification gets exactly one theorem
(с counterexample and witness theorems where the status requires them). -/

/-- C9: loading the persisted PipelineState is total: an absent state
document and an unparseable one both yield the empty initial state
(empty queue, cursor 0, no fingerprints, no geocode cache), so a corrupt
state file silently discards every recorded fingerprint and cache
entry. -/
theorem c9_load_state_total :
    loadStateV4 none = { queue := [], pos := 0, processed := [], geocodeCache := [] } ∧
    loadStateV4 (some none) = { queue := [], pos := 0, processed := [], geocodeCache := [] } :=
  ⟨rfl, rfl⟩

/-- C5: period classification uses the earliest parseable stop time:
minutes in [360,570] give AM, (570,840) Mid-day, [840,1080] PM; with no
parseable stop time the classifier falls back to the keyword scan of
the school string, which defaults to Route; and the four concrete
examples of the claim hold. -/
theorem c5_period_classification :
    (∀ (stops : List Stop) (school : String) (t : Nat),
      earliestTimeV4 stops = some t →
        (360 ≤ t ∧ t ≤ 570 → canonicalPeriodV4 stops school = "AM") ∧
        (570 < t ∧ t < 840 → canonicalPeriodV4 stops school = "Mid-day") ∧
        (840 ≤ t ∧ t ≤ 1080 → canonicalPeriodV4 stops school = "PM")) ∧
    (∀ (stops : List Stop) (school : String),
      earliestTimeV4 stops = none →
        canonicalPeriodV4 stops school = keywordPeriodV4 school) ∧
    canonicalPeriodV4 [{ time := "6:42 AM", location := "A", students := [] }] "GUILFORD" = "AM" ∧
    canonicalPeriodV4 [{ time := "4:15 PM", location := "A", students := [] }] "GUILFORD" = "PM" ∧
    canonicalPeriodV4 [{ time := "", location := "A", students := [] }] "GUILFORD PM" = "PM" ∧
    canonicalPeriodV4 [{ time := "", location := "A", students := [] }] "GUILFORD" = "Route" := by
  refine ⟨?_, ?_, by decide, by decide, by decide, by decide⟩
  · intro stops school t h
    refine ⟨fun hr => ?_, fun hr => ?_, fun hr => ?_⟩ <;>
      · simp only [canonicalPeriodV4, h]
        split_ifs <;> first | rfl | omega
  · intro stops school h
    simp only [canonicalPeriodV4, h]

/-- Witness for C5 at a concrete input: the stop list with earliest
parseable time 402 classifies as AM. -/
theorem c5_period_classification_witness :
    earliestTimeV4 [{ time := "6:42 AM", location := "A", students := [] }] = some 402 ∧
    canonicalPeriodV4 [{ time := "6:42 AM", location := "A", students := [] }] "Z" = "AM" :=
  ⟨by decide,
    (c5_period_classification.1 [{ time := "6:42 AM", location := "A", students := [] }] "Z" 402
      (by decide)).1 (by decide)⟩

/-- C10: an earliest stop time that parses but lies outside every period
range (t < 360 or t > 1080) does not yield Route immediately: the
classifier falls through to the keyword scan of the school name, so an
earliest stop of 5:30 AM with PM in the school name classifies as PM. -/
theorem c10_out_of_range_falls_through :
    (∀ (stops : List Stop) (school : String) (t : Nat),
      earliestTimeV4 stops = some t → t < 360 ∨ 1080 < t →
        canonicalPeriodV4 stops school = keywordPeriodV4 school) ∧
    canonicalPeriodV4 [{ time := "5:30 AM", location := "A", students := [] }] "GUILFORD PM" = "PM" := by
  refine ⟨?_, by decide⟩
  intro stops school t h hr
  simp only [canonicalPeriodV4, h]
  split_ifs <;> first | omega | rfl

/-- Witness for C10 at a concrete input: earliest time 330 (5:30 AM) is
out of range and the classifier returns the keyword-scan result. -/
theorem c10_out_of_range_falls_through_witness :
    earliestTimeV4 [{ time := "5:30 AM", location := "A", students := [] }] = some 330 ∧
    canonicalPeriodV4 [{ time := "5:30 AM", location := "A", students := [] }] "X"
      = keywordPeriodV4 "X" :=
  ⟨by decide,
    c10_out_of_range_falls_through.1 [{ time := "5:30 AM", location := "A", students := [] }] "X"
      330 (by decide) (by decide)⟩

/-- One attempt of the retry loop succeeds immediately. -/
theorem withRetryGo_ok {ε α : Type} (fn : Nat → Except ε α) (e : ε) (i n : Nat) (a : α)
    (h : fn i = .ok a) : withRetryGo fn e i (n + 1) = (.ok a, 1) := by
  simp [withRetryGo, h]

/-- One attempt of the retry loop fails and the loop continues. -/
theorem withRetryGo_err {ε α : Type} (fn : Nat → Except ε α) (e e' : ε) (i n : Nat)
    (h : fn i = .error e') :
    withRetryGo fn e i (n + 1) =
      ((withRetryGo fn e' (i + 1) n).1, (withRetryGo fn e' (i + 1) n).2 + 1) := by
  simp [withRetryGo, h]

/-- Behaviour of `extractSpecEdRoutesV4` when the first fetch attempt
returns an HTTP response (of any status): the retry wrapper stops after
exactly one call — `muteHttpExceptions` means no response ever throws —
and the status/body is then dispatched outside the wrapper. -/
theorem extract_first_resp (key text fb fbb : String) (f : Nat → FetchOut) (c : Nat)
    (b : GemBody) (ht : text ≠ "") (h0 : f 0 = .resp c b) :
    extractSpecEdRoutesV4 (some key) f text fb fbb =
      (if c ≠ 200 then .error ("Gemini API " ++ toString c)
       else
         match b with
         | .malformed => .error "SyntaxError: unexpected token in JSON"
         | .noText => .ok []
         | .withText .malformed => .ok [{ busNumber := fbb, schoolName := fb, stops := [] }]
         | .withText .notArray => .ok []
         | .withText (.arr []) => .ok [{ busNumber := fbb, schoolName := fb, stops := [] }]
         | .withText (.arr rs) => .ok rs, 1) := by
  unfold extractSpecEdRoutesV4 withRetryV4
  rw [if_neg ht]
  rw [show (3 : Nat) = 2 + 1 from rfl,
    withRetryGo_ok _ _ _ _ (c, b) (by simp [h0])]
  rcases b with _ | _ | (_ | _ | (_ | ⟨r, rs⟩)) <;> by_cases hc : c = 200 <;> simp [hc]

/-- C4 counterexample: with a transport that answers HTTP 500 on the
first attempt and a perfectly good response on the second, the
extraction makes exactly one fetch call and throws — the 5xx response is
never retried, because `muteHttpExceptions: true` keeps it from throwing
inside the retry wrapper and the status check happens outside it. -/
theorem c4_counterexample :
    extractSpecEdRoutesV4 (some "key")
      (fun i => if i = 0 then .resp 500 .noText
        else .resp 200 (.withText (.arr
          [{ busNumber := "001", schoolName := "S",
             stops := [{ time := "6:00 AM", location := "Main St", students := [] }] }])))
      "OCR TEXT" "S" "B"
      = (.error "Gemini API 500", 1) := rfl

/-- C4 amended: the retry wrapper retries the generative fetch only when
the fetch itself throws (transport failure), up to 3 attempts; an HTTP
response of any status — including 5xx and 429 — ends the retry loop
after that single call, and a non-200 status is then thrown as a
per-item error; a malformed inner JSON text is treated as the fallback
empty-stops result without any retry, while a malformed outer response
body propagates as an error. -/
theorem c4_amended :
    (∀ (key text fb fbb : String) (f : Nat → FetchOut) (c : Nat) (b : GemBody),
      text ≠ "" → f 0 = .resp c b →
      (extractSpecEdRoutesV4 (some key) f text fb fbb).2 = 1) ∧
    (∀ (key text fb fbb : String) (f : Nat → FetchOut) (c : Nat) (b : GemBody),
      text ≠ "" → f 0 = .throwErr → f 1 = .resp c b →
      (extractSpecEdRoutesV4 (some key) f text fb fbb).2 = 2) ∧
    (∀ (key text fb fbb : String) (f : Nat → FetchOut) (c : Nat) (b : GemBody),
      text ≠ "" → c ≠ 200 → f 0 = .resp c b →
      (extractSpecEdRoutesV4 (some key) f text fb fbb).1
        = .error ("Gemini API " ++ toString c)) ∧
    (∀ (key text fb fbb : String) (f : Nat → FetchOut),
      text ≠ "" → f 0 = .resp 200 (.withText .malformed) →
      (extractSpecEdRoutesV4 (some key) f text fb fbb).1
        = .ok [{ busNumber := fbb, schoolName := fb, stops := [] }]) ∧
    (∀ (key text fb fbb : String) (f : Nat → FetchOut),
      text ≠ "" → f 0 = .resp 200 .malformed →
      (extractSpecEdRoutesV4 (some key) f text fb fbb).1
        = .error "SyntaxError: unexpected token in JSON") := by
  refine ⟨?_, ?_, ?_, ?_, ?_⟩
  · intro key text fb fbb f c b ht h0
    rw [extract_first_resp key text fb fbb f c b ht h0]
  · intro key text fb fbb f c b ht h0 h1
    unfold extractSpecEdRoutesV4 withRetryV4
    rw [if_neg ht]
    rw [show (3 : Nat) = 2 + 1 from rfl,
      withRetryGo_err _ _ "fetch failed" _ _ (by simp [h0]),
      show (2 : Nat) = 1 + 1 from rfl,
      withRetryGo_ok _ _ _ _ (c, b) (by simp [h1])]
    rcases b with _ | _ | (_ | _ | (_ | ⟨r, rs⟩)) <;> by_cases hc : c = 200 <;> simp [hc]
  · intro key text fb fbb f c b ht hc h0
    rw [extract_first_resp key text fb fbb f c b ht h0]
    simp [hc]
  · intro key text fb fbb f ht h0
    rw [extract_first_resp key text fb fbb f 200 _ ht h0]
    simp
  · intro key text fb fbb f ht h0
    rw [extract_first_resp key text fb fbb f 200 _ ht h0]
    simp

/-- Witness for C4 at a concrete input: a transport that throws once and
then returns a good response is retried, making two calls. -/
theorem c4_amended_witness :
    ("T" : String) ≠ "" ∧
    (fun i => if i = 0 then FetchOut.throwErr else .resp 200 .noText) 0 = .throwErr ∧
    (extractSpecEdRoutesV4 (some "key")
        (fun i => if i = 0 then FetchOut.throwErr else .resp 200 .noText) "T" "S" "B").2 = 2 :=
  ⟨by decide, by decide,
    c4_amended.2.1 "key" "T" "S" "B"
      (fun i => if i = 0 then FetchOut.throwErr else .resp 200 .noText) 200 .noText
      (by decide) (by decide) (by decide)⟩

/-- Members produced by the phone dedup filter avoid the seen set and
are never empty. -/
theorem phoneDedup_mem : ∀ (l seen : List String) (s : String),
    s ∈ phoneDedup seen l → s ∉ seen ∧ s ≠ "" := by
  intro l
  induction l with
  | nil => intro seen s h; simp [phoneDedup] at h
  | cons a rest ih =>
    intro seen s h
    by_cases hc : a = "" ∨ a ∈ seen
    · rw [phoneDedup, if_pos hc] at h
      exact ih seen s h
    · rw [phoneDedup, if_neg hc] at h
      push_neg at hc
      rcases List.mem_cons.mp h with h | h
      · subst h; exact ⟨hc.2, hc.1⟩
      · have := ih (a :: seen) s h
        exact ⟨fun hs => this.1 (List.mem_cons_of_mem a hs), this.2⟩

/-- The phone dedup filter leaves no duplicates. -/
theorem phoneDedup_pairwise : ∀ (l seen : List String),
    List.Pairwise (· ≠ ·) (phoneDedup seen l) := by
  intro l
  induction l with
  | nil => intro seen; simp [phoneDedup]
  | cons a rest ih =>
    intro seen
    by_cases hc : a = "" ∨ a ∈ seen
    · rw [phoneDedup, if_pos hc]; exact ih seen
    · rw [phoneDedup, if_neg hc]
      refine List.Pairwise.cons (fun b hb => ?_) (ih (a :: seen))
      have := (phoneDedup_mem rest (a :: seen) b hb).1
      exact fun hab => this (hab ▸ List.mem_cons_self a seen)

/-- The phone dedup filter preserves the relative order of survivors. -/
theorem phoneDedup_sublist : ∀ (l seen : List String),
    (phoneDedup seen l).Sublist l := by
  intro l
  induction l with
  | nil => intro seen; simp [phoneDedup]
  | cons a rest ih =>
    intro seen
    by_cases hc : a = "" ∨ a ∈ seen
    · rw [phoneDedup, if_pos hc]; exact (ih seen).cons a
    · rw [phoneDedup, if_neg hc]; exact (ih (a :: seen)).cons₂ a

/-- Every survivor of the phone dedup filter is the first occurrence of
its value in the input list. -/
theorem phoneDedup_find : ∀ (l seen : List String) (s : String),
    s ∈ phoneDedup seen l → l.find? (· == s) = some s := by
  intro l
  induction l with
  | nil => intro seen s h; simp [phoneDedup] at h
  | cons a rest ih =>
    intro seen s h
    by_cases hc : a = "" ∨ a ∈ seen
    · rw [phoneDedup, if_pos hc] at h
      have hne : a ≠ s := by
        intro has
        have := phoneDedup_mem rest seen s h
        rcases hc with hc | hc
        · exact this.2 (has.symm.trans hc)
        · exact this.1 (has ▸ hc)
      rw [List.find?_cons_of_neg _ (by simpa using hne), ih seen s h]
    · rw [phoneDedup, if_neg hc] at h
      rcases List.mem_cons.mp h with h | h
      · subst h
        rw [List.find?_cons_of_pos _ (by simp)]
      · have hne : a ≠ s := by
          intro has
          exact (phoneDedup_mem rest (a :: seen) s h).1 (has ▸ List.mem_cons_self a seen)
        rw [List.find?_cons_of_neg _ (by simpa using hne), ih (a :: seen) s h]

/-- C6 counterexample: the 11-digit input 41055501009 does not start
with 1, so under the claim it should be left unformatted; the code
formats any string of length at least 10, truncating to the first ten
characters, and returns 410-555-0100. -/
theorem c6_counterexample :
    normalizePhonesV3 "41055501009" = "410-555-0100" ∧
    ("410-555-0100" : String) ≠ "41055501009" :=
  ⟨rfl, by decide⟩

/-- C6 amended: per line, the normalizer strips every character that is
not a digit or the letter x/X, drops a leading 1 only when exactly 11
characters remain, and formats any result of at least 10 characters by
truncating to its first ten as XXX-XXX-XXXX; lines are deduplicated with
the first occurrence winning and the surviving order preserved, and
empty lines are dropped.  The claim's example 1-410-555-0100 →
410-555-0100 holds. -/
theorem c6_amended :
    normalizePhonesV3 "1-410-555-0100" = "410-555-0100" ∧
    normalizePhonesV3 "410 555-01x0" = "410-555-01x0" ∧
    normalizePhonesV3 "4105550100999" = "410-555-0100" ∧
    normalizePhonesV3 "410-555-0100\n(410) 555-0100\n301-555-0199"
      = "410-555-0100\n301-555-0199" ∧
    (∀ raw : String, List.Pairwise (· ≠ ·) (phoneList raw)) ∧
    (∀ raw : String, (phoneList raw).Sublist ((splitNl raw).map phoneLine)) ∧
    (∀ raw : String, "" ∉ phoneList raw) ∧
    (∀ (raw s : String), s ∈ phoneList raw →
      ((splitNl raw).map phoneLine).find? (· == s) = some s) := by
  refine ⟨rfl, rfl, rfl, rfl, ?_, ?_, ?_, ?_⟩
  · intro raw; exact phoneDedup_pairwise _ []
  · intro raw; exact phoneDedup_sublist _ []
  · intro raw h; exact (phoneDedup_mem _ [] "" h).2 rfl
  · intro raw s h; exact phoneDedup_find _ [] s h

/-- Witness for C6 at a concrete input: the second phone number survives
dedup and is found at its first occurrence. -/
theorem c6_amended_witness :
    ("301-555-0199" : String) ∈ phoneList "410-555-0100\n301-555-0199" ∧
    ((splitNl "410-555-0100\n301-555-0199").map phoneLine).find? (· == "301-555-0199")
      = some "301-555-0199" :=
  ⟨by decide, c6_amended.2.2.2.2.2.2.2 "410-555-0100\n301-555-0199" "301-555-0199" (by decide)⟩

/-- C1 counterexample: a SpecEd item whose OCR text is empty ends in an
extraction-quality warning, yet `processed[sourceId]` IS updated to the
item's fingerprint: the warning return of `publishRoutesV4_` is not an
exception, so line 73 still runs. -/
theorem c1_counterexample :
    processItemV4 envEmpty [] [] itemPdfA
      = ([("f1", "5")], [], [.ocrCall "f1", .warnNoRoutes "a.pdf"]) ∧
    alGet (processItemV4 envEmpty [] [] itemPdfA).1 "f1"
      = some (storedFingerprintV4 itemPdfA.updatedMs) :=
  ⟨rfl, rfl⟩

/-- C1 amended: every extraction-quality failure — an extraction that
returns no routes at all (empty OCR text, empty or non-array generative
response), or one whose routes are left with zero stops after cleaning
(malformed or empty-array generative responses produce the empty-stops
fallback route) — is logged as a warning, nothing is published or
geocoded, and `processed[sourceId]` IS updated to the item's current
fingerprint, so the item is not re-attempted while the source is
unchanged.  `processed` is left untouched only when processing throws,
which is logged as an error: every non-skipped item either gets its
fingerprint recorded or returns with `processed` unchanged and an
error-log event in its trace.  The first two conjuncts quantify over
every extraction outcome; the next two instantiate the claim's concrete
failure modes (empty OCR text, malformed generative response), and the
last shows a thrown extraction leaving `processed` unchanged. -/
theorem c1_amended :
    (∀ (env : EnvV4) (processed : List (String × String)) (cache : Cache) (item : WorkItem)
        (routes : List RouteDraft) (evs : List Ev),
      item.fileId ≠ "" → item.routeType ≠ "" →
      (alGet processed item.fileId).getD "" ≠ strFingerprintV4 item.updatedMs →
      extractForItemV4 env item = (.ok routes, evs) →
      (routes = [] →
        processItemV4 env processed cache item
          = (alSet processed item.fileId (storedFingerprintV4 item.updatedMs), cache,
             evs ++ [.warnNoRoutes item.fileName])) ∧
      (routes ≠ [] → cleanedRoutesV4 routes item = [] →
        processItemV4 env processed cache item
          = (alSet processed item.fileId (storedFingerprintV4 item.updatedMs), cache,
             evs ++ [.warnNoStops item.fileName]))) ∧
    (∀ (env : EnvV4) (processed : List (String × String)) (cache : Cache) (item : WorkItem),
      item.fileId ≠ "" → item.routeType ≠ "" →
      (alGet processed item.fileId).getD "" ≠ strFingerprintV4 item.updatedMs →
      (processItemV4 env processed cache item).1
          = alSet processed item.fileId (storedFingerprintV4 item.updatedMs) ∨
      ((processItemV4 env processed cache item).1 = processed ∧
        ∃ msg, Ev.logError item.routeType item.fileName msg
          ∈ (processItemV4 env processed cache item).2.2)) ∧
    (∀ (env : EnvV4) (processed : List (String × String)) (cache : Cache) (item : WorkItem),
      item.fileId ≠ "" → item.routeType = "SPECED_PDF" →
      (alGet processed item.fileId).getD "" ≠ strFingerprintV4 item.updatedMs →
      env.ocr item.fileId = .ok "" →
      processItemV4 env processed cache item
        = (alSet processed item.fileId (storedFingerprintV4 item.updatedMs), cache,
           [.ocrCall item.fileId, .warnNoRoutes item.fileName])) ∧
    (∀ (env : EnvV4) (processed : List (String × String)) (cache : Cache) (item : WorkItem)
        (key text : String),
      item.fileId ≠ "" → item.routeType = "SPECED_PDF" →
      (alGet processed item.fileId).getD "" ≠ strFingerprintV4 item.updatedMs →
      env.ocr item.fileId = .ok text → text ≠ "" →
      env.apiKey = some key →
      env.fetch 0 = .resp 200 (.withText .malformed) →
      processItemV4 env processed cache item
        = (alSet processed item.fileId (storedFingerprintV4 item.updatedMs), cache,
           [.ocrCall item.fileId, .fetchGemini, .warnNoStops item.fileName])) ∧
    (∀ (env : EnvV4) (processed : List (String × String)) (cache : Cache) (item : WorkItem)
        (msg : String),
      item.fileId ≠ "" → item.routeType = "REGED_DOC" →
      (alGet processed item.fileId).getD "" ≠ strFingerprintV4 item.updatedMs →
      env.parseRegEd item.fileId item.fileName item.busNumberHint = .error msg →
      processItemV4 env processed cache item
        = (processed, cache,
           [.extractRegEd item.fileId, .logError item.routeType item.fileName msg])) := by
  refine ⟨?_, ?_, ?_, ?_, ?_⟩
  · intro env processed cache item routes evs h1 h2 h3 hex
    constructor
    · intro hroutes
      subst hroutes
      unfold processItemV4
      rw [if_neg (by simp [h1, h2])]
      rw [if_neg h3]
      rw [hex]
      dsimp only
      simp [publishRoutesV4]
    · intro hne hclean
      unfold processItemV4
      rw [if_neg (by simp [h1, h2])]
      rw [if_neg h3]
      rw [hex]
      dsimp only
      simp [publishRoutesV4, hne, hclean]
  · intro env processed cache item h1 h2 h3
    unfold processItemV4
    rw [if_neg (by simp [h1, h2])]
    rw [if_neg h3]
    rcases hex : extractForItemV4 env item with ⟨r, evs⟩
    rcases r with msg | routes <;> dsimp only
    · exact Or.inr ⟨rfl, msg, by simp⟩
    · by_cases hp : (publishRoutesV4 env.geo env.nowIso routes item cache).threw
      · rw [if_pos hp]
        exact Or.inr ⟨rfl, "geocode failed", by simp⟩
      · rw [if_neg hp]
        exact Or.inl rfl
  · intro env processed cache item h1 h2 h3 h4
    unfold processItemV4
    rw [if_neg (by simp [h1, h2])]
    rw [if_neg h3]
    unfold extractForItemV4
    simp [h2, h4, extractSpecEdRoutesV4, publishRoutesV4]
  · intro env processed cache item key text h1 h2 h3 hocr htext hkey hfetch
    unfold processItemV4
    rw [if_neg (by simp [h1, h2])]
    rw [if_neg h3]
    unfold extractForItemV4
    simp only [h2, reduceIte, hocr, hkey]
    rw [extract_first_resp key text
      (jsOr item.schoolNameHint (stripExtV4 item.fileName)) item.busNumberHint
      env.fetch 200 (.withText .malformed) htext hfetch]
    dsimp only
    simp [publishRoutesV4, cleanedRoutesV4, cleanRouteV4, cleanStopsV4, List.replicate]
  · intro env processed cache item msg h1 h2 h3 h4
    unfold processItemV4
    rw [if_neg (by simp [h1, h2])]
    rw [if_neg h3]
    unfold extractForItemV4
    simp [h2, h4]

/-- Witness for C1 at a concrete input: a SpecEd item with a blank
document is marked processed after a warning. -/
theorem c1_amended_witness :
    ("g2" : String) ≠ "" ∧
    processItemV4 envEmpty [] []
        { routeType := "SPECED_PDF", fileId := "g2", fileName := "b.pdf", updatedMs := 9,
          busNumberHint := "", schoolNameHint := "" }
      = ([("g2", "9")], [], [.ocrCall "g2", .warnNoRoutes "b.pdf"]) :=
  ⟨by decide,
    c1_amended.2.2.1 envEmpty [] []
      { routeType := "SPECED_PDF", fileId := "g2", fileName := "b.pdf", updatedMs := 9,
        busNumberHint := "", schoolNameHint := "" }
      (by decide) rfl (by decide) rfl⟩

/-- C2 counterexample: an item with `updatedMs = 0` whose stored entry is
exactly the fingerprint the code itself writes on success ("0") is
nevertheless reprocessed — the comparison side coerces 0 to the empty
string (`String(0 || '') = ''`) while the stored side holds "0" — so
extraction runs again even though the fingerprints are equal. -/
theorem c2_counterexample :
    alGet [("f", "0")] itemDocZero.fileId
      = some (storedFingerprintV4 itemDocZero.updatedMs) ∧
    processItemV4 envEmpty [("f", "0")] [] itemDocZero
      = ([("f", "0")], [], [.extractRegEd "f", .warnNoRoutes "doc"]) ∧
    Ev.extractRegEd "f" ∈ (processItemV4 envEmpty [("f", "0")] [] itemDocZero).2.2 :=
  ⟨rfl, rfl, by decide⟩

/-- C2 amended: an item is reprocessed iff
`String(processed[sourceId] || '') ≠ String(lastModifiedMs || '')`.
For nonzero `lastModifiedMs` this is exactly "current fingerprint
differs from the stored one"; a zero `lastModifiedMs` is compared as
the empty string, so such an item is skipped when nothing is stored and
reprocessed when a prior success stored "0".  When the coerced strings
are equal the batch performs no extraction, geocoding or publish call
for the item and only logs a skip; when they differ the matching
extraction strategy is invoked. -/
theorem c2_amended :
    (∀ (env : EnvV4) (processed : List (String × String)) (cache : Cache) (item : WorkItem),
      item.fileId ≠ "" → item.routeType ≠ "" →
      (alGet processed item.fileId).getD "" = strFingerprintV4 item.updatedMs →
      processItemV4 env processed cache item
        = (processed, cache, [.logSkip item.routeType item.fileName])) ∧
    (∀ (env : EnvV4) (processed : List (String × String)) (cache : Cache) (item : WorkItem),
      item.fileId ≠ "" →
      (alGet processed item.fileId).getD "" ≠ strFingerprintV4 item.updatedMs →
      (item.routeType = "REGED_DOC" →
        .extractRegEd item.fileId ∈ (processItemV4 env processed cache item).2.2) ∧
      (item.routeType = "SPECED_PDF" →
        .ocrCall item.fileId ∈ (processItemV4 env processed cache item).2.2)) := by
  constructor
  · intro env processed cache item h1 h2 h3
    unfold processItemV4
    rw [if_neg (by simp [h1, h2])]
    rw [if_pos h3]
  · intro env processed cache item h1 h3
    constructor
    · intro hR
      unfold processItemV4
      rw [if_neg (by simp [h1, hR])]
      rw [if_neg h3]
      unfold extractForItemV4
      rcases henv : env.parseRegEd item.fileId item.fileName item.busNumberHint with e | routes
      · simp [hR, henv]
      · simp only [hR, henv, reduceIte]
        by_cases hp : (publishRoutesV4 env.geo env.nowIso routes item cache).threw <;> simp [hp]
    · intro hS
      unfold processItemV4
      rw [if_neg (by simp [h1, hS])]
      rw [if_neg h3]
      unfold extractForItemV4
      rcases hocr : env.ocr item.fileId with e | text <;> simp only [hS, hocr, reduceIte]
      · simp
      · rcases hex : extractSpecEdRoutesV4 env.apiKey env.fetch text
            (jsOr item.schoolNameHint (stripExtV4 item.fileName)) item.busNumberHint with ⟨r, n⟩
        rcases r with e | routes
        · simp [hex]
        · simp only [hex]
          by_cases hp : (publishRoutesV4 env.geo env.nowIso routes item cache).threw <;> simp [hp]

/-- Witness for C2 at a concrete input: an unchanged item (stored
fingerprint equals the current one) produces only a skip log. -/
theorem c2_amended_witness :
    ("h3" : String) ≠ "" ∧
    processItemV4 envEmpty [("h3", "7")] []
        { routeType := "REGED_DOC", fileId := "h3", fileName := "c", updatedMs := 7,
          busNumberHint := "", schoolNameHint := "" }
      = ([("h3", "7")], [], [.logSkip "REGED_DOC" "c"]) :=
  ⟨by decide,
    c2_amended.1 envEmpty [("h3", "7")] []
      { routeType := "REGED_DOC", fileId := "h3", fileName := "c", updatedMs := 7,
        busNumberHint := "", schoolNameHint := "" }
      (by decide) (by decide) (by decide)⟩

/-- Scrubbing the generation timestamp makes the publish write trace
independent of the clock. -/
theorem publishWriteEvs_scrub (item : WorkItem) (now1 now2 : String) :
    ∀ rs : List RouteDraft,
      (publishWriteEvs now1 item rs).map scrubEv = (publishWriteEvs now2 item rs).map scrubEv := by
  intro rs
  induction rs with
  | nil => rfl
  | cons r rest ih =>
    simp [publishWriteEvs, scrubEv, routeArtifactV4, ih]

/-- C8: publishing the same cleaned RouteDraft twice (same routes, same
source item, same cache and geocoder behaviour) writes to the same
canonical name "{CANONICAL SCHOOL} ({PERIOD})" and produces identical
cache, identical outcome, and an identical event trace — including each
written artifact byte for byte — once the meta.generatedAt timestamp is
blanked out. -/
theorem c8_publish_idempotent :
    (∀ (geo : GeoFn) (routes : List RouteDraft) (item : WorkItem) (cache : Cache)
        (now1 now2 : String),
      (publishRoutesV4 geo now1 routes item cache).cache
        = (publishRoutesV4 geo now2 routes item cache).cache ∧
      (publishRoutesV4 geo now1 routes item cache).threw
        = (publishRoutesV4 geo now2 routes item cache).threw ∧
      (publishRoutesV4 geo now1 routes item cache).trace.map scrubEv
        = (publishRoutesV4 geo now2 routes item cache).trace.map scrubEv) ∧
    (∀ r : RouteDraft,
      canonicalRouteFileStemV4 r.schoolName r.stops
        = canonicalizeSchoolV4 r.schoolName ++ " (" ++
          canonicalPeriodV4 r.stops r.schoolName ++ ")") := by
  refine ⟨?_, fun r => rfl⟩
  intro geo routes item cache now1 now2
  unfold publishRoutesV4
  by_cases h1 : routes = []
  · simp [h1]
  · simp only [if_neg h1]
    by_cases h2 : cleanedRoutesV4 routes item = []
    · simp [h2]
    · simp only [if_neg h2]
      by_cases h3 : (geoRoutes geo (cleanedRoutesV4 routes item) cache).2.2.2
      · simp [h3]
      · simp [h3, publishWriteEvs_scrub item now1 now2]

/-- Stops surviving the clean loop have keys outside the seen set. -/
theorem cleanStops_mem : ∀ (l : List Stop) (school : String) (seen : List String) (s' : Stop),
    s' ∈ cleanStopsV4 school seen l → stopKeyOf s' ∉ seen := by
  intro l
  induction l with
  | nil => intro school seen s' h; simp [cleanStopsV4] at h
  | cons s rest ih =>
    intro school seen s' h
    rw [cleanStopsV4] at h
    rcases hn : normalizeStopV4 school s with _ | c <;> simp only [hn] at h
    · exact ih school seen s' h
    · by_cases hk : stopKeyV4 c.time c.location ∈ seen
      · rw [if_pos hk] at h
        exact ih school seen s' h
      · rw [if_neg hk] at h
        rcases List.mem_cons.mp h with h | h
        · subst h; exact hk
        · intro hs
          exact ih school (stopKeyV4 c.time c.location :: seen) s' h
            (List.mem_cons_of_mem _ hs)

/-- No two stops surviving the clean loop share a dedup key. -/
theorem cleanStops_pairwise : ∀ (l : List Stop) (school : String) (seen : List String),
    List.Pairwise (fun a b => stopKeyOf a ≠ stopKeyOf b) (cleanStopsV4 school seen l) := by
  intro l
  induction l with
  | nil => intro school seen; simp [cleanStopsV4]
  | cons s rest ih =>
    intro school seen
    rw [cleanStopsV4]
    rcases hn : normalizeStopV4 school s with _ | c <;> simp only [hn]
    · exact ih school seen
    · by_cases hk : stopKeyV4 c.time c.location ∈ seen
      · rw [if_pos hk]; exact ih school seen
      · rw [if_neg hk]
        refine List.Pairwise.cons (fun b hb hab => ?_) (ih school _)
        have := cleanStops_mem rest school (stopKeyV4 c.time c.location :: seen) b hb
        exact this (hab ▸ List.mem_cons_self _ _)

/-- The clean loop preserves the relative order of surviving stops: its
output is a sublist of the filtered-and-normalized input. -/
theorem cleanStops_sublist : ∀ (l : List Stop) (school : String) (seen : List String),
    (cleanStopsV4 school seen l).Sublist (l.filterMap (normalizeStopV4 school)) := by
  intro l
  induction l with
  | nil => intro school seen; simp [cleanStopsV4]
  | cons s rest ih =>
    intro school seen
    rw [cleanStopsV4, List.filterMap_cons]
    rcases hn : normalizeStopV4 school s with _ | c <;> simp only [hn]
    · exact ih school seen
    · by_cases hk : stopKeyV4 c.time c.location ∈ seen
      · rw [if_pos hk]; exact (ih school seen).cons c
      · rw [if_neg hk]; exact (ih school _).cons₂ c

/-- Every survivor of the clean loop is the first candidate carrying its
dedup key. -/
theorem cleanStops_find : ∀ (l : List Stop) (school : String) (seen : List String) (s' : Stop),
    s' ∈ cleanStopsV4 school seen l →
    (l.filterMap (normalizeStopV4 school)).find? (fun c => stopKeyOf c == stopKeyOf s')
      = some s' := by
  intro l
  induction l with
  | nil => intro school seen s' h; simp [cleanStopsV4] at h
  | cons s rest ih =>
    intro school seen s' h
    rw [cleanStopsV4] at h
    rw [List.filterMap_cons]
    rcases hn : normalizeStopV4 school s with _ | c <;> simp only [hn] at h ⊢
    · exact ih school seen s' h
    · by_cases hk : stopKeyV4 c.time c.location ∈ seen
      · rw [if_pos hk] at h
        have hne : stopKeyOf c ≠ stopKeyOf s' := by
          intro he
          exact cleanStops_mem rest school seen s' h (he ▸ hk)
        rw [List.find?_cons_of_neg _ (by simpa using hne), ih school seen s' h]
      · rw [if_neg hk] at h
        rcases List.mem_cons.mp h with h | h
        · subst h
          rw [List.find?_cons_of_pos _ (by simp)]
        · have hmem := cleanStops_mem rest school (stopKeyV4 c.time c.location :: seen) s' h
          have hne : stopKeyOf c ≠ stopKeyOf s' := by
            intro he
            exact hmem (he ▸ List.mem_cons_self _ _)
          rw [List.find?_cons_of_neg _ (by simpa using hne), ih school _ s' h]

/-- Agreement of the case-insensitive (time, location) pair implies
agreement of the concatenated dedup key. -/
theorem stopKey_of_pair {a b : Stop} (ht : strLower a.time = strLower b.time)
    (hl : strLower a.location = strLower b.location) : stopKeyOf a = stopKeyOf b := by
  have h1 : a.time.data.map lowChar = b.time.data.map lowChar := congrArg String.data ht
  have h2 : a.location.data.map lowChar = b.location.data.map lowChar := congrArg String.data hl
  simp [stopKeyOf, stopKeyV4, h1, h2]

/-- Strengthening a successful find to a stronger predicate satisfied by
the found element. -/
theorem find?_of_imp {α : Type} : ∀ (l : List α) (p q : α → Bool) (a : α),
    (∀ x, p x = true → q x = true) → l.find? q = some a → p a = true →
    l.find? p = some a := by
  intro l
  induction l with
  | nil => intro p q a _ hq _; simp at hq
  | cons x rest ih =>
    intro p q a hpq hq hpa
    by_cases hx : q x = true
    · rw [List.find?_cons_of_pos _ hx] at hq
      injection hq with hq
      subst hq
      rw [List.find?_cons_of_pos _ hpa]
    · rw [List.find?_cons_of_neg _ hx] at hq
      have hpx : ¬ p x = true := fun hp => hx (hpq x hp)
      rw [List.find?_cons_of_neg _ hpx]
      exact ih p q a hpq hq hpa

/-- C7: after cleaning, no two stops of a route share the
case-insensitive (normalizedTime, location) key; duplicates are removed
with the first occurrence winning and the relative order of surviving
stops preserved (the output is a sublist of the normalized candidate
list, and each survivor is the first candidate with its key). -/
theorem c7_dedup_invariant :
    ∀ (route : RouteDraft) (fallbackSchool fallbackBus : String),
      List.Pairwise
        (fun a b => ¬ (strLower a.time = strLower b.time ∧
          strLower a.location = strLower b.location))
        (cleanRouteV4 route fallbackSchool fallbackBus).stops ∧
      (cleanRouteV4 route fallbackSchool fallbackBus).stops.Sublist
        (route.stops.filterMap
          (normalizeStopV4 (jsOr (jsTrim (jsOr route.schoolName fallbackSchool))
            "Unknown Route"))) ∧
      ∀ s ∈ (cleanRouteV4 route fallbackSchool fallbackBus).stops,
        (route.stops.filterMap
            (normalizeStopV4 (jsOr (jsTrim (jsOr route.schoolName fallbackSchool))
              "Unknown Route"))).find?
          (fun c => (strLower c.time == strLower s.time) &&
            (strLower c.location == strLower s.location))
          = some s := by
  intro route fallbackSchool fallbackBus
  refine ⟨?_, ?_, ?_⟩
  · exact (cleanStops_pairwise route.stops _ []).imp
      (fun hne hpair => hne (stopKey_of_pair hpair.1 hpair.2))
  · exact cleanStops_sublist route.stops _ []
  · intro s hs
    refine find?_of_imp _ _ (fun c => stopKeyOf c == stopKeyOf s) s ?_
      (cleanStops_find route.stops _ [] s hs) (by simp)
    intro x hx
    simp only [Bool.and_eq_true, beq_iff_eq] at hx
    simp [stopKey_of_pair hx.1 hx.2]

/-- Witness for C7 at a concrete input: a route with a case-variant
duplicate keeps only the first occurrence, and the survivor is found at
its first candidate position. -/
theorem c7_dedup_invariant_witness :
    ({ time := "6:42 AM", location := "Main St", students := [] } : Stop)
      ∈ (cleanRouteV4
          { busNumber := "7", schoolName := "G",
            stops := [{ time := "6:42 am", location := "Main St", students := [] },
                      { time := "6:42 AM", location := "MAIN ST", students := [] }] }
          "" "").stops ∧
    (({ busNumber := "7", schoolName := "G",
        stops := [{ time := "6:42 am", location := "Main St", students := [] },
                  { time := "6:42 AM", location := "MAIN ST", students := [] }] }
        : RouteDraft).stops.filterMap
        (normalizeStopV4 (jsOr (jsTrim (jsOr "G" "")) "Unknown Route"))).find?
      (fun c => (strLower c.time == strLower "6:42 AM") &&
        (strLower c.location == strLower "Main St"))
      = some { time := "6:42 AM", location := "Main St", students := [] } :=
  ⟨by decide,
    (c7_dedup_invariant
      { busNumber := "7", schoolName := "G",
        stops := [{ time := "6:42 am", location := "Main St", students := [] },
                  { time := "6:42 AM", location := "MAIN ST", students := [] }] }
      "" "").2.2 { time := "6:42 AM", location := "Main St", students := [] } (by decide)⟩

/-- Lookup after updating the same key. -/
theorem alGet_alSet_self {α : Type} : ∀ (m : List (String × α)) (k : String) (v : α),
    alGet (alSet m k v) k = some v := by
  intro m
  induction m with
  | nil => intro k v; simp [alSet, alGet]
  | cons p rest ih =>
    obtain ⟨k', v'⟩ := p
    intro k v
    rw [alSet]
    by_cases hk : k' = k
    · rw [if_pos hk, alGet, if_pos hk]
    · rw [if_neg hk, alGet, if_neg hk]
      exact ih k v

/-- Lookup after updating a different key. -/
theorem alGet_alSet_ne {α : Type} : ∀ (m : List (String × α)) (key k : String) (v : α),
    key ≠ k → alGet (alSet m key v) k = alGet m k := by
  intro m
  induction m with
  | nil => intro key k v h; simp [alSet, alGet, h]
  | cons p rest ih =>
    obtain ⟨k', v'⟩ := p
    intro key k v h
    rw [alSet]
    by_cases hk : k' = key
    · rw [if_pos hk, alGet, alGet]
      subst hk
      rw [if_neg h, if_neg h]
    · rw [if_neg hk, alGet, alGet]
      by_cases hk2 : k' = k
      · rw [if_pos hk2, if_pos hk2]
      · rw [if_neg hk2, if_neg hk2]
        exact ih key k v h

/-- Updating never erases a present key. -/
theorem alGet_alSet_isSome {α : Type} (m : List (String × α)) (key k : String) (v : α)
    (h : (alGet m k).isSome) : (alGet (alSet m key v) k).isSome := by
  by_cases hk : key = k
  · subst hk; rw [alGet_alSet_self]; rfl
  · rw [alGet_alSet_ne _ _ _ _ hk]; exact h

/-- Coordinate cache entries survive the stop loop of the geocoder. -/
theorem geoStops_coord_mono (geo : GeoFn) : ∀ (stops : List Stop) (cache : Cache)
    (k : String) (la ln : Int), alGet cache k = some (.coord la ln) →
    alGet (geoStops geo stops cache).2.1 k = some (.coord la ln) := by
  intro stops
  induction stops with
  | nil => intro cache k la ln h; simpa [geoStops] using h
  | cons s rest ih =>
    intro cache k la ln h
    rw [geoStops]
    rcases hc : alGet cache (strLower (geoQueryV4 s)) with _ | (⟨la', ln'⟩ | _) <;> dsimp only
    · rcases hg : geo (geoQueryV4 s) with u | (_ | ⟨la2, ln2⟩) <;> dsimp only
      · exact h
      · exact ih cache k la ln h
      · have hkk : strLower (geoQueryV4 s) ≠ k := by
          intro he; rw [he, h] at hc; simp at hc
        exact ih _ k la ln (by rw [alGet_alSet_ne _ _ _ _ hkk]; exact h)
    · exact ih cache k la ln h
    · rcases hg : geo (geoQueryV4 s) with u | (_ | ⟨la2, ln2⟩) <;> dsimp only
      · exact h
      · exact ih cache k la ln h
      · have hkk : strLower (geoQueryV4 s) ≠ k := by
          intro he; rw [he, h] at hc; simp at hc
        exact ih _ k la ln (by rw [alGet_alSet_ne _ _ _ _ hkk]; exact h)

/-- The stop loop never removes a cache key. -/
theorem geoStops_isSome_mono (geo : GeoFn) : ∀ (stops : List Stop) (cache : Cache)
    (k : String), (alGet cache k).isSome →
    (alGet (geoStops geo stops cache).2.1 k).isSome := by
  intro stops
  induction stops with
  | nil => intro cache k h; simpa [geoStops] using h
  | cons s rest ih =>
    intro cache k h
    rw [geoStops]
    rcases hc : alGet cache (strLower (geoQueryV4 s)) with _ | (⟨la', ln'⟩ | _) <;> dsimp only
    · rcases hg : geo (geoQueryV4 s) with u | (_ | ⟨la2, ln2⟩) <;> dsimp only
      · exact h
      · exact ih cache k h
      · exact ih _ k (alGet_alSet_isSome cache _ k _ h)
    · exact ih cache k h
    · rcases hg : geo (geoQueryV4 s) with u | (_ | ⟨la2, ln2⟩) <;> dsimp only
      · exact h
      · exact ih cache k h
      · exact ih _ k (alGet_alSet_isSome cache _ k _ h)

/-- Every entry the stop loop adds to the cache is a coordinate pair. -/
theorem geoStops_new_coord (geo : GeoFn) : ∀ (stops : List Stop) (cache : Cache)
    (k : String) (v : CacheVal), alGet (geoStops geo stops cache).2.1 k = some v →
    alGet cache k = some v ∨ ∃ la ln : Int, v = .coord la ln := by
  intro stops
  induction stops with
  | nil => intro cache k v h; rw [geoStops] at h; exact Or.inl h
  | cons s rest ih =>
    intro cache k v h
    rw [geoStops] at h
    rcases hc : alGet cache (strLower (geoQueryV4 s)) with _ | (⟨la', ln'⟩ | _) <;>
      rw [hc] at h <;> dsimp only at h
    · rcases hg : geo (geoQueryV4 s) with u | (_ | ⟨la2, ln2⟩) <;>
        rw [hg] at h <;> dsimp only at h
      · exact Or.inl h
      · exact ih cache k v h
      · rcases ih _ k v h with h' | h'
        · by_cases hk : strLower (geoQueryV4 s) = k
          · subst hk
            rw [alGet_alSet_self] at h'
            exact Or.inr ⟨la2, ln2, (Option.some.inj h').symm⟩
          · rw [alGet_alSet_ne _ _ _ _ hk] at h'
            exact Or.inl h'
        · exact Or.inr h'
    · exact ih cache k v h
    · rcases hg : geo (geoQueryV4 s) with u | (_ | ⟨la2, ln2⟩) <;>
        rw [hg] at h <;> dsimp only at h
      · exact Or.inl h
      · exact ih cache k v h
      · rcases ih _ k v h with h' | h'
        · by_cases hk : strLower (geoQueryV4 s) = k
          · subst hk
            rw [alGet_alSet_self] at h'
            exact Or.inr ⟨la2, ln2, (Option.some.inj h').symm⟩
          · rw [alGet_alSet_ne _ _ _ _ hk] at h'
            exact Or.inl h'
        · exact Or.inr h'

/-- If a key is cached with coordinates, no stop whose query lowercases
to that key triggers a geocoder call in the stop loop. -/
theorem geoStops_hit_no_call (geo : GeoFn) : ∀ (stops : List Stop) (cache : Cache)
    (k : String) (la ln : Int) (q : String), alGet cache k = some (.coord la ln) →
    strLower q = k → Ev.geocodeCall q ∉ (geoStops geo stops cache).2.2.1 := by
  intro stops
  induction stops with
  | nil => intro cache k la ln q h hq; simp [geoStops]
  | cons s rest ih =>
    intro cache k la ln q h hq
    rw [geoStops]
    rcases hc : alGet cache (strLower (geoQueryV4 s)) with _ | (⟨la', ln'⟩ | _) <;> dsimp only
    · have hne : q ≠ geoQueryV4 s := by
        intro he; rw [← he, hq, h] at hc; simp at hc
      rcases hg : geo (geoQueryV4 s) with u | (_ | ⟨la2, ln2⟩) <;> dsimp only
      · simp [hne]
      · simp only [List.mem_cons, not_or]
        exact ⟨by simp [hne], ih cache k la ln q h hq⟩
      · simp only [List.mem_cons, not_or]
        have hkk : strLower (geoQueryV4 s) ≠ k := by
          intro he; rw [he, h] at hc; simp at hc
        refine ⟨by simp [hne], ih _ k la ln q ?_ hq⟩
        rw [alGet_alSet_ne _ _ _ _ hkk]; exact h
    · exact ih cache k la ln q h hq
    · have hne : q ≠ geoQueryV4 s := by
        intro he; rw [← he, hq, h] at hc; simp at hc
      rcases hg : geo (geoQueryV4 s) with u | (_ | ⟨la2, ln2⟩) <;> dsimp only
      · simp [hne]
      · simp only [List.mem_cons, not_or]
        exact ⟨by simp [hne], ih cache k la ln q h hq⟩
      · simp only [List.mem_cons, not_or]
        have hkk : strLower (geoQueryV4 s) ≠ k := by
          intro he; rw [he, h] at hc; simp at hc
        refine ⟨by simp [hne], ih _ k la ln q ?_ hq⟩
        rw [alGet_alSet_ne _ _ _ _ hkk]; exact h

/-- In a stop-loop run that did not throw, every geocoder call got an
HTTP answer (match or no-match) rather than an exception. -/
theorem geoStops_call_ok (geo : GeoFn) : ∀ (stops : List Stop) (cache : Cache) (q : String),
    (geoStops geo stops cache).2.2.2 = false →
    Ev.geocodeCall q ∈ (geoStops geo stops cache).2.2.1 →
    ∃ o, geo q = .ok o := by
  intro stops
  induction stops with
  | nil => intro cache q _ hm; simp [geoStops] at hm
  | cons s rest ih =>
    intro cache q ht hm
    rw [geoStops] at ht hm
    rcases hc : alGet cache (strLower (geoQueryV4 s)) with _ | (⟨la', ln'⟩ | _) <;>
      rw [hc] at ht hm <;> dsimp only at ht hm
    · rcases hg : geo (geoQueryV4 s) with u | (_ | ⟨la2, ln2⟩) <;>
        rw [hg] at ht hm <;> dsimp only at ht hm
      · simp at ht
      · rcases List.mem_cons.mp hm with hm | hm
        · obtain rfl : q = geoQueryV4 s := Ev.geocodeCall.inj hm
          exact ⟨none, hg⟩
        · exact ih cache q ht hm
      · rcases List.mem_cons.mp hm with hm | hm
        · obtain rfl : q = geoQueryV4 s := Ev.geocodeCall.inj hm
          exact ⟨some (la2, ln2), hg⟩
        · exact ih _ q ht hm
    · exact ih cache q ht hm
    · rcases hg : geo (geoQueryV4 s) with u | (_ | ⟨la2, ln2⟩) <;>
        rw [hg] at ht hm <;> dsimp only at ht hm
      · simp at ht
      · rcases List.mem_cons.mp hm with hm | hm
        · obtain rfl : q = geoQueryV4 s := Ev.geocodeCall.inj hm
          exact ⟨none, hg⟩
        · exact ih cache q ht hm
      · rcases List.mem_cons.mp hm with hm | hm
        · obtain rfl : q = geoQueryV4 s := Ev.geocodeCall.inj hm
          exact ⟨some (la2, ln2), hg⟩
        · exact ih _ q ht hm

/-- A geocoder call that found coordinates leaves them in the final
cache of the stop loop. -/
theorem geoStops_call_cached (geo : GeoFn) : ∀ (stops : List Stop) (cache : Cache)
    (q : String) (la ln : Int),
    Ev.geocodeCall q ∈ (geoStops geo stops cache).2.2.1 →
    geo q = .ok (some (la, ln)) →
    alGet (geoStops geo stops cache).2.1 (strLower q) = some (.coord la ln) := by
  intro stops
  induction stops with
  | nil => intro cache q la ln hm _; simp [geoStops] at hm
  | cons s rest ih =>
    intro cache q la ln hm hq
    rw [geoStops] at hm ⊢
    rcases hc : alGet cache (strLower (geoQueryV4 s)) with _ | (⟨la', ln'⟩ | _) <;>
      rw [hc] at hm <;> dsimp only at hm ⊢
    · rcases hg : geo (geoQueryV4 s) with u | (_ | ⟨la2, ln2⟩) <;>
        rw [hg] at hm <;> dsimp only at hm ⊢
      · rcases List.mem_cons.mp hm with hm | hm
        · obtain rfl : q = geoQueryV4 s := Ev.geocodeCall.inj hm
          rw [hg] at hq; simp at hq
        · simp at hm
      · rcases List.mem_cons.mp hm with hm | hm
        · obtain rfl : q = geoQueryV4 s := Ev.geocodeCall.inj hm
          rw [hg] at hq; simp at hq
        · exact ih cache q la ln hm hq
      · rcases List.mem_cons.mp hm with hm | hm
        · obtain rfl : q = geoQueryV4 s := Ev.geocodeCall.inj hm
          rw [hg] at hq
          obtain ⟨h1, h2⟩ : la2 = la ∧ ln2 = ln := by
            have hp := Option.some.inj (Except.ok.inj hq)
            exact ⟨congrArg Prod.fst hp, congrArg Prod.snd hp⟩
          rw [h1, h2]
          exact geoStops_coord_mono geo rest _ _ la ln (alGet_alSet_self _ _ _)
        · exact ih _ q la ln hm hq
    · exact ih cache q la ln hm hq
    · rcases hg : geo (geoQueryV4 s) with u | (_ | ⟨la2, ln2⟩) <;>
        rw [hg] at hm <;> dsimp only at hm ⊢
      · rcases List.mem_cons.mp hm with hm | hm
        · obtain rfl : q = geoQueryV4 s := Ev.geocodeCall.inj hm
          rw [hg] at hq; simp at hq
        · simp at hm
      · rcases List.mem_cons.mp hm with hm | hm
        · obtain rfl : q = geoQueryV4 s := Ev.geocodeCall.inj hm
          rw [hg] at hq; simp at hq
        · exact ih cache q la ln hm hq
      · rcases List.mem_cons.mp hm with hm | hm
        · obtain rfl : q = geoQueryV4 s := Ev.geocodeCall.inj hm
          rw [hg] at hq
          obtain ⟨h1, h2⟩ : la2 = la ∧ ln2 = ln := by
            have hp := Option.some.inj (Except.ok.inj hq)
            exact ⟨congrArg Prod.fst hp, congrArg Prod.snd hp⟩
          rw [h1, h2]
          exact geoStops_coord_mono geo rest _ _ la ln (alGet_alSet_self _ _ _)
        · exact ih _ q la ln hm hq

/-- Two ordered calls for the same lowercase key inside one stop loop
force the earlier call to have returned no match: a successful call
caches its key, and cached keys are never called again. -/
theorem geoStops_two_calls (geo : GeoFn) : ∀ (stops : List Stop) (cache : Cache)
    (q q' : String), strLower q' = strLower q →
    [Ev.geocodeCall q, Ev.geocodeCall q'].Sublist (geoStops geo stops cache).2.2.1 →
    geo q = .ok none := by
  intro stops
  induction stops with
  | nil => intro cache q q' _ hs; rw [geoStops] at hs; simpa using hs.length_le
  | cons s rest ih =>
    intro cache q q' hk hs
    rw [geoStops] at hs
    rcases hc : alGet cache (strLower (geoQueryV4 s)) with _ | (⟨la', ln'⟩ | _) <;>
      rw [hc] at hs <;> dsimp only at hs
    · rcases hg : geo (geoQueryV4 s) with u | (_ | ⟨la2, ln2⟩) <;>
        rw [hg] at hs <;> dsimp only at hs
      · simpa using hs.length_le
      · rcases List.sublist_cons_iff.mp hs with hs' | ⟨r, heq, hr⟩
        · exact ih cache q q' hk hs'
        · rw [List.cons.injEq] at heq
          obtain rfl : q = geoQueryV4 s := Ev.geocodeCall.inj heq.1
          exact hg
      · rcases List.sublist_cons_iff.mp hs with hs' | ⟨r, heq, hr⟩
        · exact ih _ q q' hk hs'
        · rw [List.cons.injEq] at heq
          obtain rfl : q = geoQueryV4 s := Ev.geocodeCall.inj heq.1
          obtain rfl : r = [Ev.geocodeCall q'] := heq.2.symm
          exact absurd (List.singleton_sublist.mp hr)
            (geoStops_hit_no_call geo rest _ _ la2 ln2 q' (alGet_alSet_self _ _ _) hk)
    · exact ih cache q q' hk hs
    · rcases hg : geo (geoQueryV4 s) with u | (_ | ⟨la2, ln2⟩) <;>
        rw [hg] at hs <;> dsimp only at hs
      · simpa using hs.length_le
      · rcases List.sublist_cons_iff.mp hs with hs' | ⟨r, heq, hr⟩
        · exact ih cache q q' hk hs'
        · rw [List.cons.injEq] at heq
          obtain rfl : q = geoQueryV4 s := Ev.geocodeCall.inj heq.1
          exact hg
      · rcases List.sublist_cons_iff.mp hs with hs' | ⟨r, heq, hr⟩
        · exact ih _ q q' hk hs'
        · rw [List.cons.injEq] at heq
          obtain rfl : q = geoQueryV4 s := Ev.geocodeCall.inj heq.1
          obtain rfl : r = [Ev.geocodeCall q'] := heq.2.symm
          exact absurd (List.singleton_sublist.mp hr)
            (geoStops_hit_no_call geo rest _ _ la2 ln2 q' (alGet_alSet_self _ _ _) hk)

/-- Coordinate cache entries survive the route loop of the geocoder. -/
theorem geoRoutes_coord_mono (geo : GeoFn) : ∀ (routes : List RouteDraft) (cache : Cache)
    (k : String) (la ln : Int), alGet cache k = some (.coord la ln) →
    alGet (geoRoutes geo routes cache).2.1 k = some (.coord la ln) := by
  intro routes
  induction routes with
  | nil => intro cache k la ln h; simpa [geoRoutes] using h
  | cons r rest ih =>
    intro cache k la ln h
    rw [geoRoutes]
    dsimp only
    cases hth : (geoStops geo r.stops cache).2.2.2
    · rw [if_neg Bool.false_ne_true]
      exact ih _ k la ln (geoStops_coord_mono geo r.stops cache k la ln h)
    · rw [if_pos rfl]
      exact geoStops_coord_mono geo r.stops cache k la ln h

/-- The route loop never removes a cache key. -/
theorem geoRoutes_isSome_mono (geo : GeoFn) : ∀ (routes : List RouteDraft) (cache : Cache)
    (k : String), (alGet cache k).isSome →
    (alGet (geoRoutes geo routes cache).2.1 k).isSome := by
  intro routes
  induction routes with
  | nil => intro cache k h; simpa [geoRoutes] using h
  | cons r rest ih =>
    intro cache k h
    rw [geoRoutes]
    dsimp only
    cases hth : (geoStops geo r.stops cache).2.2.2
    · rw [if_neg Bool.false_ne_true]
      exact ih _ k (geoStops_isSome_mono geo r.stops cache k h)
    · rw [if_pos rfl]
      exact geoStops_isSome_mono geo r.stops cache k h

/-- Every entry the route loop adds to the cache is a coordinate pair. -/
theorem geoRoutes_new_coord (geo : GeoFn) : ∀ (routes : List RouteDraft) (cache : Cache)
    (k : String) (v : CacheVal), alGet (geoRoutes geo routes cache).2.1 k = some v →
    alGet cache k = some v ∨ ∃ la ln : Int, v = .coord la ln := by
  intro routes
  induction routes with
  | nil => intro cache k v h; rw [geoRoutes] at h; exact Or.inl h
  | cons r rest ih =>
    intro cache k v h
    rw [geoRoutes] at h
    dsimp only at h
    cases hth : (geoStops geo r.stops cache).2.2.2 <;> rw [hth] at h
    · rw [if_neg Bool.false_ne_true] at h
      rcases ih _ k v h with h' | h'
      · exact geoStops_new_coord geo r.stops cache k v h'
      · exact Or.inr h'
    · rw [if_pos rfl] at h
      exact geoStops_new_coord geo r.stops cache k v h

/-- If a key is cached with coordinates, no stop whose query lowercases
to that key triggers a geocoder call anywhere in the route loop. -/
theorem geoRoutes_hit_no_call (geo : GeoFn) : ∀ (routes : List RouteDraft) (cache : Cache)
    (k : String) (la ln : Int) (q : String), alGet cache k = some (.coord la ln) →
    strLower q = k → Ev.geocodeCall q ∉ (geoRoutes geo routes cache).2.2.1 := by
  intro routes
  induction routes with
  | nil => intro cache k la ln q h hq; simp [geoRoutes]
  | cons r rest ih =>
    intro cache k la ln q h hq
    rw [geoRoutes]
    dsimp only
    cases hth : (geoStops geo r.stops cache).2.2.2
    · rw [if_neg Bool.false_ne_true]
      simp only [List.mem_append, not_or]
      exact ⟨geoStops_hit_no_call geo r.stops cache k la ln q h hq,
        ih _ k la ln q (geoStops_coord_mono geo r.stops cache k la ln h) hq⟩
    · rw [if_pos rfl]
      exact geoStops_hit_no_call geo r.stops cache k la ln q h hq

/-- Decomposition of a two-element sublist of a concatenation. -/
theorem pair_sublist_append {α : Type} {a b : α} {t1 t2 : List α}
    (h : [a, b].Sublist (t1 ++ t2)) :
    [a, b].Sublist t1 ∨ [a, b].Sublist t2 ∨ (a ∈ t1 ∧ b ∈ t2) := by
  rcases List.sublist_append_iff.mp h with ⟨l1, l2, heq, h1, h2⟩
  rcases l1 with _ | ⟨x, _ | ⟨y, l1'⟩⟩
  · rw [List.nil_append] at heq
    rw [← heq] at h2
    exact Or.inr (Or.inl h2)
  · rw [List.cons_append, List.nil_append, List.cons.injEq] at heq
    obtain ⟨rfl, heq2⟩ := heq
    rw [← heq2] at h2
    exact Or.inr (Or.inr ⟨List.singleton_sublist.mp h1, List.singleton_sublist.mp h2⟩)
  · simp only [List.cons_append, List.cons.injEq] at heq
    obtain ⟨rfl, rfl, heq⟩ := heq
    have h12 := List.append_eq_nil.mp heq.symm
    rw [h12.1] at h1
    exact Or.inl h1

/-- Two ordered calls for the same lowercase key inside one route-loop
run force the earlier call to have returned no match. -/
theorem geoRoutes_two_calls (geo : GeoFn) : ∀ (routes : List RouteDraft) (cache : Cache)
    (q q' : String), strLower q' = strLower q →
    [Ev.geocodeCall q, Ev.geocodeCall q'].Sublist (geoRoutes geo routes cache).2.2.1 →
    geo q = .ok none := by
  intro routes
  induction routes with
  | nil => intro cache q q' _ hs; rw [geoRoutes] at hs; simpa using hs.length_le
  | cons r rest ih =>
    intro cache q q' hk hs
    rw [geoRoutes] at hs
    dsimp only at hs
    cases hth : (geoStops geo r.stops cache).2.2.2 <;> rw [hth] at hs
    · rw [if_neg Bool.false_ne_true] at hs
      rcases pair_sublist_append hs with h1 | h1 | ⟨ha, hb⟩
      · exact geoStops_two_calls geo r.stops cache q q' hk h1
      · exact ih _ q q' hk h1
      · obtain ⟨o, ho⟩ := geoStops_call_ok geo r.stops cache q hth ha
        rcases o with _ | ⟨la, ln⟩
        · exact ho
        · have hcached := geoStops_call_cached geo r.stops cache q la ln ha ho
          exact absurd hb (geoRoutes_hit_no_call geo rest _ (strLower q) la ln q' hcached hk)
    · rw [if_pos rfl] at hs
      exact geoStops_two_calls geo r.stops cache q q' hk hs

/-- C3 counterexample: two stops of one route share the location
"Main St"; the geocoder finds no match, nothing is cached, and the very
same query is sent to the geocoding service twice within one run —
refuting "a repeated query within one run never triggers a second
geocoding call". -/
theorem c3_counterexample :
    (geoRoutes (fun _ => .ok none)
        [{ busNumber := "001", schoolName := "S",
           stops := [{ time := "6:00 AM", location := "Main St", students := [] },
                     { time := "7:00 AM", location := "Main St", students := [] }] }]
        []).2.2.1
      = [.geocodeCall "Main St, Howard County, Maryland",
         .geocodeCall "Main St, Howard County, Maryland"] := rfl

/-- C3 amended: within a single run the geocode cache only gains
entries — coordinate entries are never removed or overwritten, no key is
ever deleted, and every inserted value is a coordinate pair; for every
query whose lowercase form is cached with numeric coordinates,
processing a stop with that query copies the cached coordinates and
issues no geocoding call; and a repeated query triggers a second
geocoding call only when the earlier call for that key returned no
match (failed queries are not cached and are re-attempted). -/
theorem c3_amended :
    (∀ (geo : GeoFn) (routes : List RouteDraft) (cache : Cache) (k : String) (la ln : Int),
      alGet cache k = some (.coord la ln) →
      alGet (geoRoutes geo routes cache).2.1 k = some (.coord la ln)) ∧
    (∀ (geo : GeoFn) (routes : List RouteDraft) (cache : Cache) (k : String),
      (alGet cache k).isSome → (alGet (geoRoutes geo routes cache).2.1 k).isSome) ∧
    (∀ (geo : GeoFn) (routes : List RouteDraft) (cache : Cache) (k : String) (v : CacheVal),
      alGet (geoRoutes geo routes cache).2.1 k = some v →
      alGet cache k = some v ∨ ∃ la ln : Int, v = .coord la ln) ∧
    (∀ (geo : GeoFn) (routes : List RouteDraft) (cache : Cache) (k : String) (la ln : Int)
        (q : String),
      alGet cache k = some (.coord la ln) → strLower q = k →
      Ev.geocodeCall q ∉ (geoRoutes geo routes cache).2.2.1) ∧
    (∀ (geo : GeoFn) (s : Stop) (rest : List Stop) (cache : Cache) (la ln : Int),
      alGet cache (strLower (geoQueryV4 s)) = some (.coord la ln) →
      (geoStops geo (s :: rest) cache).1
          = { s with latitude := some la, longitude := some ln }
            :: (geoStops geo rest cache).1 ∧
        (geoStops geo (s :: rest) cache).2.2.1 = (geoStops geo rest cache).2.2.1) ∧
    (∀ (geo : GeoFn) (routes : List RouteDraft) (cache : Cache) (q q' : String),
      strLower q' = strLower q →
      [Ev.geocodeCall q, Ev.geocodeCall q'].Sublist (geoRoutes geo routes cache).2.2.1 →
      geo q = .ok none) := by
  refine ⟨geoRoutes_coord_mono, geoRoutes_isSome_mono, geoRoutes_new_coord,
    geoRoutes_hit_no_call, ?_, geoRoutes_two_calls⟩
  intro geo s rest cache la ln h
  rw [geoStops, h]
  exact ⟨rfl, rfl⟩

/-- Witness for C3 at a concrete input: a pre-cached coordinate entry
survives a route-loop run that geocodes an uncached stop. -/
theorem c3_amended_witness :
    alGet [("oak dr, howard county, maryland", CacheVal.coord 391 (-766))]
        "oak dr, howard county, maryland" = some (.coord 391 (-766)) ∧
    alGet (geoRoutes (fun _ => .ok none)
        [{ busNumber := "002", schoolName := "T",
           stops := [{ time := "8:00 AM", location := "Elm Ct", students := [] }] }]
        [("oak dr, howard county, maryland", CacheVal.coord 391 (-766))]).2.1
      "oak dr, howard county, maryland" = some (.coord 391 (-766)) :=
  ⟨by decide,
    c3_amended.1 (fun _ => .ok none)
      [{ busNumber := "002", schoolName := "T",
         stops := [{ time := "8:00 AM", location := "Elm Ct", students := [] }] }]
      [("oak dr, howard county, maryland", CacheVal.coord 391 (-766))]
      "oak dr, howard county, maryland" 391 (-766) (by decide)⟩

end TipTop
